import Mathlib

/-!
Verification development for the ludari cron-orchestration core.

The TypeScript sources are shallowly embedded: each class method that a
claim refers to becomes a pure Lean function over an explicit state value.
JavaScript `Map`s become association lists whose `set` replaces the key,
`Date` values become `Nat` milliseconds, buffers become `List Nat` byte
lists, and fallible methods return `Except` / explicit result records.
The in-process cache serializes every operation through its promise-chain
mutex (`withLock`), so a pair of "concurrent" callers is modelled as two
sequential invocations of the pure transition function.
-/

namespace Ludari

/-! ## Cache lock model (src/implementations/in-memory-cache.ts)

`InMemoryCache.locks : Map<string, LockData>` with
`LockData = { value, expiresAt, timeoutId }`.  The `timeoutId` only clears
the entry at expiry; expiry is always re-checked against `expiresAt`, so
the timer is not part of the functional state. -/

structure LockData where
  value : String
  expiresAt : Nat
  deriving Repr, DecidableEq

/-- A JavaScript `Map<string, LockData>`, as an association list in which
`set` replaces any previous binding of the key. -/
abbrev LockMap := List (String × LockData)

def lockLookup (m : LockMap) (k : String) : Option LockData :=
  match m with
  | [] => none
  | (k2, v) :: rest => if k2 = k then some v else lockLookup rest k

/-- `Map.delete` -/
def lockRemove (m : LockMap) (k : String) : LockMap :=
  m.filter (fun e => e.1 ≠ k)

/-- `Map.set` -/
def lockSet (m : LockMap) (k : String) (v : LockData) : LockMap :=
  (k, v) :: lockRemove m k

/-- Result record of `Cache.acquireLock`. -/
structure LockResult where
  acquired : Bool
  lockValue : Option String
  expiresAt : Option Nat
  deriving Repr, DecidableEq

/-- The guard inside `acquireLock`: an existing lock blocks the caller
exactly when `existing.expiresAt > new Date()`. -/
def lockBlocked (locks : LockMap) (key : String) (now : Nat) : Bool :=
  match lockLookup locks key with
  | some existing => decide (now < existing.expiresAt)
  | none => false

/-- `InMemoryCache.acquireLock(key, options)` (in-memory-cache.ts lines
125-167).  `now` is the current clock in ms; `freshValue` stands for the
`randomUUID()` drawn when `options.value` is absent. -/
def acquireLock (locks : LockMap) (now : Nat) (key : String) (ttlMs : Nat)
    (freshValue : String) (providedValue : Option String) :
    LockMap × LockResult :=
  if lockBlocked locks key now then
    (locks, { acquired := false, lockValue := none, expiresAt := none })
  else
    let lockValue := providedValue.getD freshValue
    let expiresAt := now + ttlMs
    (lockSet locks key { value := lockValue, expiresAt := expiresAt },
      { acquired := true, lockValue := some lockValue,
        expiresAt := some expiresAt })

/-- `InMemoryCache.releaseLock(key, lockValue)` (in-memory-cache.ts lines
169-191): compare-and-delete; `false` when the key is absent or the stored
value differs, in which case the map is untouched. -/
def releaseLock (locks : LockMap) (key : String) (lockValue : String) :
    LockMap × Bool :=
  match lockLookup locks key with
  | some existing =>
      if existing.value = lockValue then (lockRemove locks key, true)
      else (locks, false)
  | none => (locks, false)

/-! ## Redis cache lock model (RedisCache.acquireLock)

`RedisCache.acquireLock` issues `SET lockKey lockValue PX ttl NX`: the set
succeeds iff the key is absent or already past its expiry. -/

structure RedisEntry where
  value : String
  expiresAt : Option Nat
  deriving Repr, DecidableEq

abbrev RedisState := List (String × RedisEntry)

def redisLookup (s : RedisState) (k : String) : Option RedisEntry :=
  match s with
  | [] => none
  | (k2, v) :: rest => if k2 = k then some v else redisLookup rest k

def redisRemoveKey (s : RedisState) (k : String) : RedisState :=
  s.filter (fun e => e.1 ≠ k)

/-- Whether a Redis key is currently live (present and unexpired). -/
def redisLive (s : RedisState) (k : String) (now : Nat) : Bool :=
  match redisLookup s k with
  | some e =>
      match e.expiresAt with
      | some exp => decide (now < exp)
      | none => true
  | none => false

/-- `SET key value PX ttlMs NX`: stores only when the key is not live. -/
def redisSetNxPx (s : RedisState) (now : Nat) (key value : String)
    (ttlMs : Nat) : RedisState × Bool :=
  if redisLive s key now then (s, false)
  else ((key, { value := value, expiresAt := some (now + ttlMs) })
          :: redisRemoveKey s key, true)

/-- `RedisCache.acquireLock(key, options)` (RedisCache source lines
99-125): prefix the key, draw the value, `SET ... PX ... NX`, and report
`acquired` with the stored value and absolute expiry on success. -/
def redisAcquireLock (s : RedisState) (now : Nat) (keyPrefix key : String)
    (ttlMs : Nat) (freshValue : String) (providedValue : Option String) :
    RedisState × LockResult :=
  let lockKey := keyPrefix ++ "lock:" ++ key
  let lockValue := providedValue.getD freshValue
  let (s2, ok) := redisSetNxPx s now lockKey lockValue ttlMs
  if ok then
    (s2, { acquired := true, lockValue := some lockValue,
           expiresAt := some (now + ttlMs) })
  else
    (s2, { acquired := false, lockValue := none, expiresAt := none })

/-- Demo lock map used by concrete witnesses. -/
def demoLocks : LockMap := [("lock:job-x", { value := "v1", expiresAt := 10 })]

/-! ## Core data types (types/core.ts) -/

/-- Generic JavaScript `Map<string, α>` lookup over an association list. -/
def alookup {α : Type} (m : List (String × α)) (k : String) : Option α :=
  match m with
  | [] => none
  | (k2, v) :: rest => if k2 = k then some v else alookup rest k

def aremove {α : Type} (m : List (String × α)) (k : String) :
    List (String × α) :=
  m.filter (fun e => e.1 ≠ k)

def aset {α : Type} (m : List (String × α)) (k : String) (v : α) :
    List (String × α) :=
  (k, v) :: aremove m k

inductive JobType
  | inline
  | method
  | query
  deriving Repr, DecidableEq

/-- The `JobContext` keys the core consumes (types/core.ts).  A field is
`some _` when the corresponding key is present on the JS object; JS
truthiness of a boolean key is `= some true`. -/
structure JobContext where
  distributed : Option Bool := none
  ttl : Option Nat := none
  runOnce : Option Bool := none
  deriving Repr, DecidableEq

/-- A value returned by a job execution closure, as far as the core
inspects it: a `Lens` instance (carrying its captured frames), any other
value (with its JS truthiness), or `undefined`. -/
inductive ExecVal
  | lensVal (frames : List String)
  | strVal (v : String)
  | undef
  deriving Repr, DecidableEq

def ExecVal.truthy : ExecVal → Bool
  | .lensVal _ => true
  | .strVal v => v ≠ ""
  | .undef => false

/-- What `Manager.serializeResult` stores into `JobRun.result`: either a
lens frame serialization or the raw returned value. -/
inductive ResultVal
  | frames (fs : List String)
  | raw (v : ExecVal)
  deriving Repr, DecidableEq

structure Job where
  id : String
  name : String
  type : JobType
  enabled : Bool
  context : Option JobContext := none
  cron : Option String := none
  query : Option String := none
  persist : Option Bool := none
  silent : Option Bool := none
  deleted : Option Nat := none
  created_at : Nat := 0
  updated_at : Nat := 0
  deriving Repr, DecidableEq

structure Control where
  id : String
  enabled : Bool
  log_level : Option String := none
  replicas : List String
  stale : List String
  version : String
  created_at : Nat := 0
  updated_at : Nat := 0
  deriving Repr, DecidableEq

structure JobRun where
  id : String
  job_id : String
  started : Nat
  result : Option ResultVal := none
  completed : Option Nat := none
  failed : Option Nat := none
  created_at : Nat := 0
  updated_at : Nat := 0
  deriving Repr, DecidableEq

structure CreateJob where
  name : String
  type : JobType
  enabled : Bool
  context : Option JobContext := none
  cron : Option String := none
  query : Option String := none
  persist : Option Bool := none
  silent : Option Bool := none
  deriving Repr, DecidableEq

/-- `UpdateJob`: every key optional; a `some` field is a key present on
the patch object and overrides the stored value on merge. -/
structure UpdateJob where
  name : Option String := none
  type : Option JobType := none
  enabled : Option Bool := none
  context : Option JobContext := none
  cron : Option String := none
  query : Option String := none
  persist : Option Bool := none
  silent : Option Bool := none
  deleted : Option Nat := none
  deriving Repr, DecidableEq

/-- `UpdateControl`, plus the `_isHealthCheckUpdate` marker flag that
`Manager.prepare` attaches to request exact replacement of `replicas`. -/
structure UpdateControl where
  enabled : Option Bool := none
  log_level : Option String := none
  replicas : Option (List String) := none
  stale : Option (List String) := none
  version : Option String := none
  isHealthCheckUpdate : Bool := false
  deriving Repr, DecidableEq

/-- Error taxonomy of storage.interface.ts plus the manager's plain
`Error` throws (`validation` for input validation, `generic` for internal
gates). -/
inductive Err
  | validation (msg : String)
  | notFound (entity id : String)
  | conflict (msg : String)
  | invalidReference (msg : String)
  | generic (msg : String)
  deriving Repr, DecidableEq

/-- `deleted?: null | 'not-null'` on `JobFilter`: `absent` models the key
missing, `isNull` the literal `null`, `notNull` the string `'not-null'`. -/
inductive DeletedFilter
  | absent
  | isNull
  | notNull
  deriving Repr, DecidableEq

structure JobFilter where
  name : Option String := none
  type : Option JobType := none
  enabled : Option Bool := none
  deleted : DeletedFilter := .absent
  page : Option Nat := none
  page_size : Option Nat := none
  deriving Repr, DecidableEq

/-- Pagination record.  JS numbers that can be `NaN` (from
`Math.ceil(0/0)` when the filtered set and `page_size` are both empty)
are modelled as `Option Nat` with `none` for `NaN`; `next_page` and
`previous_page` use `none` for `null` (a comparison against `NaN` is
false, which also yields `null`). -/
structure Pagination where
  total : Nat
  last_page : Option Nat
  current_page : Option Nat
  next_page : Option Nat
  previous_page : Option Nat
  page_size : Nat
  deriving Repr, DecidableEq

structure PaginatedJobs where
  data : List Job
  pagination : Pagination
  deriving Repr, DecidableEq

/-! ## InMemoryStorage (src/implementations/in-memory-storage.ts)

`controls`, `jobs`, `jobRuns` are JS Maps keyed by id; `jobsByName` is the
name-to-id secondary index.  All reads hand out deep copies, so sharing
plays no role and the maps are plain association lists here. -/

structure StorageState where
  controls : List (String × Control)
  jobs : List (String × Job)
  jobsByName : List (String × String)
  jobRuns : List (String × JobRun)
  deriving Repr, DecidableEq

def emptyStorage : StorageState :=
  { controls := [], jobs := [], jobsByName := [], jobRuns := [] }

/-- `getControl()`: first value of the `controls` map or null. -/
def getControl (s : StorageState) : Option Control :=
  (s.controls.map Prod.snd).head?

def applyControlPatch (c : Control) (p : UpdateControl) (now : Nat) :
    Control :=
  { c with
    enabled := p.enabled.getD c.enabled
    log_level := match p.log_level with
      | some l => some l
      | none => c.log_level
    replicas := p.replicas.getD c.replicas
    stale := p.stale.getD c.stale
    version := p.version.getD c.version
    updated_at := now }

/-- `InMemoryStorage.updateControl(id, data)` (in-memory-storage.ts lines
85-107): NotFound when the id is unknown; Conflict when `data.version` is
provided and differs from the stored version; otherwise spread the patch
over the row and refresh `updated_at`. -/
def updateControl (s : StorageState) (id : String) (p : UpdateControl)
    (now : Nat) : Except Err (StorageState × Control) :=
  match alookup s.controls id with
  | none => .error (.notFound "Control" id)
  | some existing =>
      match p.version with
      | some v =>
          if existing.version ≠ v then
            .error (.conflict "Control version mismatch")
          else
            let updated := applyControlPatch existing p now
            .ok ({ s with controls := aset s.controls id updated }, updated)
      | none =>
          let updated := applyControlPatch existing p now
          .ok ({ s with controls := aset s.controls id updated }, updated)

def watchJobName : String := "__watch__"

/-- The filter predicate inside `findJobs`.  `filter.name` and
`filter.type` are guarded by JS truthiness (an empty-string name filter is
skipped); `filter.enabled` by `!== undefined`. -/
def jobMatches (f : JobFilter) (job : Job) : Bool :=
  (match f.name with
    | some n => n = "" || job.name = n
    | none => true) &&
  (match f.type with
    | some t => job.type = t
    | none => true) &&
  (match f.enabled with
    | some b => job.enabled = b
    | none => true) &&
  (match f.deleted with
    | .notNull => job.deleted.isSome
    | .isNull => job.deleted.isNone
    | .absent => true)

/-- `InMemoryStorage.findJobs(filter?)` (in-memory-storage.ts lines
109-150): drop `__watch__` rows, apply the filter, then paginate with
`page = filter?.page || 1`, `pageSize = filter?.page_size || total`,
`lastPage = Math.ceil(total / pageSize)` and
`currentPage = Math.min(Math.max(1, page), lastPage)`. -/
def findJobs (s : StorageState) (f : Option JobFilter) : PaginatedJobs :=
  let jobs0 := (s.jobs.map Prod.snd).filter (fun j => j.name ≠ watchJobName)
  let filtered := match f with
    | some flt => jobs0.filter (jobMatches flt)
    | none => jobs0
  let total := filtered.length
  let page := match f with
    | some flt => match flt.page with
        | some p => if p = 0 then 1 else p
        | none => 1
    | none => 1
  let pageSize := match f with
    | some flt => match flt.page_size with
        | some p => if p = 0 then total else p
        | none => total
    | none => total
  let lastPage : Option Nat :=
    if pageSize = 0 then none else some ((total + pageSize - 1) / pageSize)
  let currentPage : Option Nat := lastPage.map (fun lp => min (max 1 page) lp)
  let data := match currentPage with
    | some cp => (filtered.drop ((cp - 1) * pageSize)).take pageSize
    | none => []
  { data := data
    pagination :=
      { total := total
        last_page := lastPage
        current_page := currentPage
        next_page := match currentPage, lastPage with
          | some cp, some lp => if cp < lp then some (cp + 1) else none
          | _, _ => none
        previous_page := match currentPage with
          | some cp => if 1 < cp then some (cp - 1) else none
          | none => none
        page_size := pageSize } }

/-- `findJob(id)`: null for unknown ids and for tombstoned rows. -/
def findJob (s : StorageState) (id : String) : Option Job :=
  match alookup s.jobs id with
  | some job => if job.deleted.isSome then none else some job
  | none => none

/-- `findJobByName(name)`: resolve through the `jobsByName` index, null
for stale index entries and tombstoned rows. -/
def findJobByName (s : StorageState) (name : String) : Option Job :=
  match alookup s.jobsByName name with
  | none => none
  | some id =>
      match alookup s.jobs id with
      | some job => if job.deleted.isSome then none else some job
      | none => none

/-- `InMemoryStorage.createJob(data)`: Conflict on a name already present
in the index, otherwise insert and index the new row.  `freshId` stands
for the generated `randomUUID()`. -/
def storageCreateJob (s : StorageState) (d : CreateJob) (freshId : String)
    (now : Nat) : Except Err (StorageState × Job) :=
  if (alookup s.jobsByName d.name).isSome then
    .error (.conflict ("Job with name " ++ d.name ++ " already exists"))
  else
    let job : Job :=
      { id := freshId, name := d.name, type := d.type, enabled := d.enabled
        context := d.context, cron := d.cron, query := d.query
        persist := d.persist, silent := d.silent, deleted := none
        created_at := now, updated_at := now }
    .ok ({ s with
            jobs := aset s.jobs freshId job
            jobsByName := aset s.jobsByName d.name freshId }, job)

def applyJobPatch (j : Job) (p : UpdateJob) (now : Nat) : Job :=
  { j with
    name := p.name.getD j.name
    type := p.type.getD j.type
    enabled := p.enabled.getD j.enabled
    context := match p.context with
      | some c => some c
      | none => j.context
    cron := match p.cron with
      | some c => some c
      | none => j.cron
    query := match p.query with
      | some q => some q
      | none => j.query
    persist := match p.persist with
      | some b => some b
      | none => j.persist
    silent := match p.silent with
      | some b => some b
      | none => j.silent
    deleted := match p.deleted with
      | some t => some t
      | none => j.deleted
    updated_at := now }

/-- `InMemoryStorage.updateJob(id, data)` (in-memory-storage.ts lines
196-221): NotFound on unknown id; Conflict when a truthy `data.name`
differs from the current name and already has an index entry; otherwise
merge, maintain the index, and store. -/
def storageUpdateJob (s : StorageState) (id : String) (p : UpdateJob)
    (now : Nat) : Except Err (StorageState × Job) :=
  match alookup s.jobs id with
  | none => .error (.notFound "Job" id)
  | some existing =>
      let renames : Bool :=
        match p.name with
        | some n => n ≠ "" && n ≠ existing.name
        | none => false
      if renames && (alookup s.jobsByName ((p.name).getD "")).isSome then
        .error (.conflict ("Job with name " ++ (p.name).getD "" ++
          " already exists"))
      else
        let updated := applyJobPatch existing p now
        let index :=
          if renames then
            aset (aremove s.jobsByName existing.name) updated.name id
          else s.jobsByName
        .ok ({ s with
                jobs := aset s.jobs id updated
                jobsByName := index }, updated)

/-- `InMemoryStorage.deleteJob(id)`: soft delete by stamping `deleted`. -/
def storageDeleteJob (s : StorageState) (id : String) (now : Nat) :
    Except Err StorageState :=
  match alookup s.jobs id with
  | none => .error (.notFound "Job" id)
  | some existing =>
      let updated := { existing with deleted := some now, updated_at := now }
      .ok { s with jobs := aset s.jobs id updated }

/-- `InMemoryStorage.createJobRun(data)`: INVALID_REFERENCE when `job_id`
does not name a stored job. -/
def createJobRun (s : StorageState) (jobId : String) (started : Nat)
    (freshId : String) (now : Nat) : Except Err (StorageState × JobRun) :=
  if (alookup s.jobs jobId).isNone then
    .error (.invalidReference ("Cannot create job run: Job " ++ jobId ++
      " not found"))
  else
    let run : JobRun :=
      { id := freshId, job_id := jobId, started := started
        created_at := now, updated_at := now }
    .ok ({ s with jobRuns := aset s.jobRuns freshId run }, run)

structure UpdateJobRun where
  result : Option ResultVal := none
  completed : Option Nat := none
  failed : Option Nat := none
  deriving Repr, DecidableEq

/-- `InMemoryStorage.updateJobRun(id, data)`: NotFound on unknown id,
otherwise merge the patch and refresh `updated_at`. -/
def updateJobRun (s : StorageState) (id : String) (p : UpdateJobRun)
    (now : Nat) : Except Err (StorageState × JobRun) :=
  match alookup s.jobRuns id with
  | none => .error (.notFound "JobRun" id)
  | some existing =>
      let updated : JobRun :=
        { existing with
          result := match p.result with
            | some r => some r
            | none => existing.result
          completed := match p.completed with
            | some t => some t
            | none => existing.completed
          failed := match p.failed with
            | some t => some t
            | none => existing.failed
          updated_at := now }
      .ok ({ s with jobRuns := aset s.jobRuns id updated }, updated)

/-! ## Manager lifecycle flags (dist/core/manager.js)

`isInitialized` / `isDestroyed` and the three methods that read or write
them.  `destroy()` never clears `isInitialized`, and `initialize()` never
consults `isDestroyed`. -/

structure ManagerFlags where
  isInitialized : Bool
  isDestroyed : Bool
  deriving Repr, DecidableEq

/-- `Manager.ensureInitialized()` (manager.js lines 831-838): the
destroyed check runs first. -/
def ensureInitialized (m : ManagerFlags) : Except Err Unit :=
  if m.isDestroyed then
    .error (.generic "Manager has been destroyed.")
  else if !m.isInitialized then
    .error (.generic "Manager not initialized. Call initialize() first.")
  else .ok ()

/-- `Manager.initialize()` (manager.js lines 167-183): fast-return when
already initialized; otherwise run `prepare` (whose success is abstracted
into `prepOk`) and mark initialized.  The destroyed flag is never read. -/
def initializeFlags (m : ManagerFlags) (prepOk : Bool) : ManagerFlags :=
  if m.isInitialized then m
  else if prepOk then { m with isInitialized := true }
  else m

/-- `Manager.destroy()` (manager.js lines 733-775) restricted to the
flags: fast-return when already destroyed (the returned `Bool` records
whether the cleanup body ran), otherwise set `isDestroyed`;
`isInitialized` is left untouched. -/
def destroyFlags (m : ManagerFlags) : ManagerFlags × Bool :=
  if m.isDestroyed then (m, false)
  else ({ m with isDestroyed := true }, true)

/-- A lifecycle call against the flags. -/
inductive MgrOp
  | initOp (prepOk : Bool)
  | destroyOp
  deriving Repr, DecidableEq

def runOps (m : ManagerFlags) : List MgrOp → ManagerFlags
  | [] => m
  | .initOp ok :: rest => runOps (initializeFlags m ok) rest
  | .destroyOp :: rest => runOps (destroyFlags m).1 rest

/-! ## Manager validation and public job API (dist/core/manager.js) -/

/-- The reserved/system names of the claim: `__watch__` itself or any
name starting with `__`, `system:`, or `internal:`. -/
def isSystemName (s : String) : Bool :=
  s = watchJobName || s.startsWith "__" || s.startsWith "system:" ||
    s.startsWith "internal:"

def validNameChar (c : Char) : Bool :=
  c.isAlphanum || c = '_' || c = '-'

/-- The first failing check of `Manager.validateJobAccess(jobName,
operation)` (manager.js lines 140-163), in source order: empty name,
the system job list (`__watch__`), the protected markers `__`,
`system:`, `internal:`, the character allow-list, the length cap. -/
def validateJobAccessErr (jobName : String) (operation : String) :
    Option String :=
  if jobName = "" then some "Job name must be a non-empty string"
  else if jobName = watchJobName then
    some ("Cannot " ++ operation ++ " system job: " ++ jobName)
  else if jobName.startsWith "__" then
    some ("Cannot " ++ operation ++
      " job with protected system marker: " ++ jobName)
  else if jobName.startsWith "system:" then
    some ("Cannot " ++ operation ++
      " job with protected system marker: " ++ jobName)
  else if jobName.startsWith "internal:" then
    some ("Cannot " ++ operation ++
      " job with protected system marker: " ++ jobName)
  else if !(jobName.toList.all validNameChar) then
    some ("Job name " ++ jobName ++ " contains invalid characters.")
  else if jobName.length > 100 then
    some "Job name cannot exceed 100 characters"
  else none

/-- `Manager.validateJobAccess` throws its first failing check. -/
def validateJobAccess (jobName : String) (operation : String) :
    Except Err Unit :=
  match validateJobAccessErr jobName operation with
  | some msg => .error (.validation msg)
  | none => .ok ()

def truthyStr : Option String → Bool
  | some s => s ≠ ""
  | none => false

def truthyBool : Option Bool → Bool
  | some b => b
  | none => false

/-- The checks of `validateJobData` after the name check: type, cron,
query-needs-query, method-needs-handler, in source order. -/
def validateJobDataErrAfterName (hasHandler : Bool)
    (cronValid : String → Bool) (isUpdate : Bool) (d : UpdateJob) :
    Option String :=
  match (match d.type with
         | some _ => none
         | none =>
             if !isUpdate then some "Job type is required" else none) with
  | some msg => some msg
  | none =>
      match (match d.cron with
             | some c =>
                 if c ≠ "" && !cronValid c then
                   some ("Invalid cron expression: " ++ c)
                 else none
             | none => none) with
      | some msg => some msg
      | none =>
          if d.type = some .query && truthyBool d.enabled &&
              truthyStr d.cron && !truthyStr d.query then
            some "Query jobs must have a query string when enabled and scheduled"
          else if d.type = some .method && truthyStr d.cron &&
              truthyBool d.enabled && !hasHandler then
            some "Method jobs require a job handler to be registered when scheduled and enabled"
          else none

/-- The first failing check of `Manager.validateJobData(data, isUpdate)`
(manager.js lines 782-830), in source order: name (required on create,
non-blank when present), type (required on create; membership in the
allow-list is subsumed by the `JobType` inductive), cron parse (the
external `cron` package enters as the `cronValid` predicate), the
query-needs-query rule, and the method-needs-handler rule. -/
def validateJobDataErr (hasHandler : Bool) (cronValid : String → Bool)
    (isUpdate : Bool) (d : UpdateJob) : Option String :=
  match d.name with
  | some n =>
      if n.trim = "" then some "Job name must be a non-empty string"
      else validateJobDataErrAfterName hasHandler cronValid isUpdate d
  | none =>
      if !isUpdate then some "Job name is required"
      else validateJobDataErrAfterName hasHandler cronValid isUpdate d

/-- `Manager.validateJobData` throws its first failing check. -/
def validateJobData (hasHandler : Bool) (cronValid : String → Bool)
    (isUpdate : Bool) (d : UpdateJob) : Except Err Unit :=
  match validateJobDataErr hasHandler cronValid isUpdate d with
  | some msg => .error (.validation msg)
  | none => .ok ()

def CreateJob.toData (c : CreateJob) : UpdateJob :=
  { name := some c.name, type := some c.type, enabled := some c.enabled
    context := c.context, cron := c.cron, query := c.query
    persist := c.persist, silent := c.silent, deleted := none }

/-- Insertion-ordered union, as `Array.from(new Set([...a, ...b]))`. -/
def dedupFirst (l : List String) : List String :=
  match l with
  | [] => []
  | x :: xs => x :: dedupFirst (xs.filter (fun y => y ≠ x))
termination_by l.length
decreasing_by
  simp only [List.length_cons]
  have := List.length_filter_le (fun y => y ≠ x) xs
  omega

/-- `Manager.updateControlWithRetry(id, data, maxRetries)` (manager.js
lines 842-904).  Each attempt refetches the Control, verifies the id,
and overwrites `data.version` with the freshly read version; `replicas`
is union-merged unless empty or flagged as a health-check update; `stale`
is replaced exactly.  In this sequential model no concurrent writer can
slip between the refetch and the update, so the optimistic check passes
on the first attempt and the backoff/retry loop collapses to one
iteration. -/
def updateControlWithRetry (s : StorageState) (id : String)
    (p : UpdateControl) (now : Nat) : Except Err (StorageState × Control) :=
  match getControl s with
  | none => .error (.generic "Control not found")
  | some current =>
      if current.id ≠ id then
        .error (.generic "Control ID mismatch")
      else
        let mergedReplicas : Option (List String) :=
          match p.replicas with
          | some rs =>
              some (if rs.isEmpty || p.isHealthCheckUpdate then rs
                    else dedupFirst (current.replicas ++ rs))
          | none => none
        updateControl s id
          { p with version := some current.version
                   replicas := mergedReplicas } now

/-- `Manager.triggerReset()` (manager.js lines 905-932): reload the
Control, then write `stale := [...control.replicas]` and
`version := randomUUID()` through the retry helper; every error is
swallowed (conflicts are expected, the rest is logged). -/
def triggerReset (s : StorageState) (freshVersion : String) (now : Nat) :
    StorageState :=
  match getControl s with
  | none => s
  | some control =>
      match updateControlWithRetry s control.id
          { stale := some control.replicas
            version := some freshVersion } now with
      | .ok (s1, _) => s1
      | .error _ => s

/-- Static manager configuration consulted by the job API. -/
structure Mgr where
  flags : ManagerFlags
  hasHandler : Bool
  hasQuerySecret : Bool
  deriving Repr, DecidableEq

/-- `Manager.createJob(data)` (manager.js lines 527-543).  `encrypt`
stands for `encryptQuery` with its random IV and salt fixed; `freshId`
and `freshVersion` are the drawn UUIDs. -/
def mCreateJob (m : Mgr) (s : StorageState) (cronValid : String → Bool)
    (encrypt : String → String) (d : CreateJob)
    (freshId freshVersion : String) (now : Nat) :
    Except Err (StorageState × Job) := do
  _ ← ensureInitialized m.flags
  _ ← validateJobData m.hasHandler cronValid false d.toData
  _ ← validateJobAccess d.name "create"
  let d2 := if truthyStr d.query && m.hasQuerySecret then
      { d with query := some (encrypt (d.query.getD "")) }
    else d
  match storageCreateJob s d2 freshId now with
  | .error e => throw e
  | .ok (s1, job) =>
      let s2 :=
        if (d.type = .query || d.type = .method) && truthyStr d.cron then
          triggerReset s1 freshVersion now
        else s1
      pure (s2, job)

/-- `Manager.updateJob(id, data)` (manager.js lines 547-575).  The
`cache.setJobContext` push performed for a present `data.context` only
touches the cache, which this storage-level model does not carry. -/
def mUpdateJob (m : Mgr) (s : StorageState) (cronValid : String → Bool)
    (encrypt : String → String) (id : String) (d : UpdateJob)
    (freshVersion : String) (now : Nat) :
    Except Err (StorageState × Job) := do
  _ ← ensureInitialized m.flags
  let existingJob := findJob s id
  _ ← validateJobData m.hasHandler cronValid true d
  match existingJob with
  | some j => _ ← validateJobAccess j.name "update"
  | none => pure ()
  match d.name with
  | some n => if n ≠ "" then _ ← validateJobAccess n "update"
  | none => pure ()
  let d2 := if truthyStr d.query && m.hasQuerySecret then
      { d with query := some (encrypt (d.query.getD "")) }
    else d
  match storageUpdateJob s id d2 now with
  | .error e => throw e
  | .ok (s1, updatedJob) =>
      let s2 :=
        if updatedJob.type = .query || updatedJob.type = .method then
          triggerReset s1 freshVersion now
        else s1
      pure (s2, updatedJob)

/-- `Manager.toggleJob(id)` (manager.js lines 579-590). -/
def mToggleJob (m : Mgr) (s : StorageState) (cronValid : String → Bool)
    (encrypt : String → String) (id : String) (freshVersion : String)
    (now : Nat) : Except Err (StorageState × Job) := do
  _ ← ensureInitialized m.flags
  if id = "" then throw (Err.validation "Job id is required")
  match findJob s id with
  | none => throw (Err.generic ("Job not found: " ++ id))
  | some job => do
      _ ← validateJobAccess job.name "toggle"
      mUpdateJob m s cronValid encrypt job.id
        { enabled := some (!job.enabled) } freshVersion now

/-- `Manager.enableJob(id)` (manager.js lines 594-608). -/
def mEnableJob (m : Mgr) (s : StorageState) (cronValid : String → Bool)
    (encrypt : String → String) (id : String) (freshVersion : String)
    (now : Nat) : Except Err (StorageState × Job) := do
  _ ← ensureInitialized m.flags
  if id = "" then throw (Err.validation "Job ID is required")
  match findJob s id with
  | none => throw (Err.generic ("Job not found: " ++ id))
  | some job => do
      _ ← validateJobAccess job.name "enable"
      if job.enabled then pure (s, job)
      else
        mUpdateJob m s cronValid encrypt id
          (UpdateJob.mk none none (some true) none none none none none none)
          freshVersion now

/-- `Manager.disableJob(id)` (manager.js lines 612-626). -/
def mDisableJob (m : Mgr) (s : StorageState) (cronValid : String → Bool)
    (encrypt : String → String) (id : String) (freshVersion : String)
    (now : Nat) : Except Err (StorageState × Job) := do
  _ ← ensureInitialized m.flags
  if id = "" then throw (Err.validation "Job ID is required")
  match findJob s id with
  | none => throw (Err.generic ("Job not found: " ++ id))
  | some job => do
      _ ← validateJobAccess job.name "disable"
      if !job.enabled then pure (s, job)
      else
        mUpdateJob m s cronValid encrypt id
          (UpdateJob.mk none none (some false) none none none none none none)
          freshVersion now

/-- `Manager.deleteJob(id)` (manager.js lines 644-662).  Stopping the
in-process cron timer has no storage effect. -/
def mDeleteJob (m : Mgr) (s : StorageState) (id : String) (now : Nat) :
    Except Err StorageState := do
  _ ← ensureInitialized m.flags
  if id = "" then throw (Err.validation "Job ID is required")
  match findJob s id with
  | none => throw (Err.generic ("Job not found: " ++ id))
  | some job => do
      _ ← validateJobAccess job.name "delete"
      match storageDeleteJob s id now with
      | .error e => throw e
      | .ok s1 => pure s1

/-- `Manager.getJob(id)` (manager.js lines 630-640): the watch job is
hidden behind `null`. -/
def mGetJob (m : Mgr) (s : StorageState) (id : String) :
    Except Err (Option Job) := do
  _ ← ensureInitialized m.flags
  if id = "" then throw (Err.validation "Job ID is required")
  match findJob s id with
  | some job =>
      if job.name = watchJobName then pure none else pure (some job)
  | none => pure none

/-- `Manager.listJobs(filter?)` (manager.js lines 672-681): delegate to
`findJobs`, then drop any watch row that slipped through. -/
def mListJobs (m : Mgr) (s : StorageState) (f : Option JobFilter) :
    Except Err PaginatedJobs := do
  _ ← ensureInitialized m.flags
  let r := findJobs s f
  pure { r with data := r.data.filter (fun j => j.name ≠ watchJobName) }

/-! ## Deadlock watchdog (dist/core/manager.js lines 1062-1127)

`activeLocks : Map<lockKey, { lockValue, acquiredAt, ttlMs, jobName }>`.
`startDeadlockDetection` fires `detectAndHandleDeadlocks` every 60 s. -/

structure ActiveLockInfo where
  lockValue : String
  acquiredAt : Nat
  ttlMs : Nat
  jobName : String
  deriving Repr, DecidableEq

abbrev ActiveLocks := List (String × ActiveLockInfo)

/-- `lockAge > lockInfo.ttlMs * 2` with `lockAge = now - acquiredAt`
(a clock running backwards gives a negative age in JS, which also fails
the strict comparison, so truncated subtraction is faithful). -/
def isStaleLock (now : Nat) (info : ActiveLockInfo) : Bool :=
  decide (info.ttlMs * 2 < now - info.acquiredAt)

/-- `Manager.detectAndHandleDeadlocks()`: collect the keys whose age
exceeds twice their TTL, then for each such key call
`cache.releaseLock(lockKey, lockInfo.lockValue)` and delete the entry
from `activeLocks` in every branch — released, refused, or thrown
(`release` supplies the cache outcome; it is inspected only for
logging).  Returns the surviving map and the attempted
`(key, lockValue)` release calls. -/
def detectAndHandleDeadlocks (destroyed : Bool) (activeLocks : ActiveLocks)
    (now : Nat) (release : String → String → Bool) :
    ActiveLocks × List (String × String) :=
  if destroyed || activeLocks.isEmpty then (activeLocks, [])
  else
    let staleKeys :=
      (activeLocks.filter (fun e => isStaleLock now e.2)).map Prod.fst
    let attempts := staleKeys.filterMap (fun k =>
      match alookup activeLocks k with
      | some info =>
          let _ := release k info.lockValue
          some (k, info.lockValue)
      | none => none)
    let remaining := staleKeys.foldl (fun acc k => aremove acc k) activeLocks
    (remaining, attempts)

/-! ## Execution pipeline: handleJob (dist/core/manager.js lines 422-523)

`handleJob` is modelled against the storage state, the cache lock map and
the replica-local `activeLocks` table.  The nondeterministic inputs are
explicit: `dynCtx` is what `cache.getJobContext(name)` returns, `exec`
the outcome of the execution closure together with the frames it captured
into the per-run lens, `freshRunId`/`freshLockValue` the drawn UUIDs, and
`now` the clock (the handful of `new Date()` calls inside one firing are
identified). -/

/-- Spread merge `{ ...context, ...dynamicContext }` on the keys the core
reads: a key present on the dynamic context wins. -/
def mergeContext (static dyn : JobContext) : JobContext :=
  { distributed := match dyn.distributed with
      | some b => some b
      | none => static.distributed
    ttl := match dyn.ttl with
      | some t => some t
      | none => static.ttl
    runOnce := match dyn.runOnce with
      | some b => some b
      | none => static.runOnce }

/-- The context resolution of `handleJob` steps 5: start from the static
`job.context`; when it carries a truthy `distributed`, merge the cached
dynamic context over it (dynamic keys win). -/
def effectiveContext (job : Job) (dynCtx : Option JobContext) : JobContext :=
  let ctx0 := job.context.getD {}
  if ctx0.distributed = some true then
    match dynCtx with
    | some dyn => mergeContext ctx0 dyn
    | none => ctx0
  else ctx0

/-- `Manager.serializeResult(result, lens)` (manager.js lines 1025-1035). -/
def serializeResult (result : ExecVal) (lensFrames : List String) :
    ResultVal :=
  match result with
  | .lensVal fs => .frames fs
  | _ =>
      if !result.truthy && lensFrames ≠ [] then .frames lensFrames
      else .raw result

/-- Outcome of `execution(context, lens)`: the returned value or the
thrown error, in both cases with the frames the closure captured into the
lens before finishing. -/
inductive ExecOutcome
  | ok (v : ExecVal) (lensFrames : List String)
  | threw (msg : String) (lensFrames : List String)
  deriving Repr, DecidableEq

structure HandleResult where
  storage : StorageState
  locks : LockMap
  activeLocks : ActiveLocks
  createdRunId : Option String
  runUpdates : List UpdateJobRun
  deriving Repr, DecidableEq

/-- The catch block restricted to the JobRun: capture the error frame
(`captureError(err, "Job execution failed")`) and mark the run failed
with the lens serialization.  `updateJobRun` cannot fail here because the
run row was just created; the error arm is unreachable and modelled as a
no-op. -/
def markRunFailed (s : StorageState) (runId : Option String)
    (frames : List String) (now : Nat) :
    StorageState × List UpdateJobRun :=
  match runId with
  | some rid =>
      let upd : UpdateJobRun :=
        { failed := some now
          result := some (.frames (frames ++ ["Job execution failed"])) }
      match updateJobRun s rid upd now with
      | .ok (s2, _) => (s2, [upd])
      | .error _ => (s, [])
  | none => (s, [])

/-- Steps 8-13 of the pipeline: run the execution, handle `runOnce`,
terminate the JobRun, and in the `finally` clause release the acquired
lock (if any) and drop it from `activeLocks`. -/
def runExecutionPhase (job : Job) (s : StorageState) (locks : LockMap)
    (activeLocks : ActiveLocks) (ctx : JobContext) (exec : ExecOutcome)
    (runId : Option String) (lockValue : Option String) (name : String)
    (now : Nat) : HandleResult :=
  let lockKey := "lock:" ++ name
  let fin : StorageState → List UpdateJobRun → HandleResult :=
    fun sFin upds =>
      match lockValue with
      | some v =>
          { storage := sFin, locks := (releaseLock locks lockKey v).1
            activeLocks := aremove activeLocks lockKey
            createdRunId := runId, runUpdates := upds }
      | none =>
          { storage := sFin, locks := locks, activeLocks := activeLocks
            createdRunId := runId, runUpdates := upds }
  match exec with
  | .threw _ frames =>
      let (s2, upds) := markRunFailed s runId frames now
      fin s2 upds
  | .ok v frames =>
      match (if ctx.runOnce = some true then
               storageUpdateJob s job.id
                 (UpdateJob.mk none none (some false) none none none none
                   none none) now
             else .ok (s, job)) with
      | .error _ =>
          -- a runOnce update failure lands in the catch block
          let (s2, upds) := markRunFailed s runId frames now
          fin s2 upds
      | .ok (s1, _) =>
          match runId with
          | some rid =>
              let upd : UpdateJobRun :=
                { completed := some now
                  result := some (serializeResult v frames) }
              match updateJobRun s1 rid upd now with
              | .ok (s2, _) => fin s2 [upd]
              | .error _ => fin s1 []  -- unreachable: the run row exists
          | none => fin s1 []

/-- `Manager.handleJob(name, execution)`. -/
def handleJob (destroyed : Bool) (s : StorageState) (locks : LockMap)
    (activeLocks : ActiveLocks) (dynCtx : Option JobContext)
    (name : String) (exec : ExecOutcome)
    (freshRunId freshLockValue : String) (now : Nat) :
    Except Err HandleResult :=
  let unchanged : HandleResult :=
    { storage := s, locks := locks, activeLocks := activeLocks
      createdRunId := none, runUpdates := [] }
  if destroyed then .ok unchanged
  else if name = "" then .error (Err.validation "Job name is required")
  else
    match findJobByName s name with
    | none => .ok unchanged
    | some job =>
        if !job.enabled || job.deleted.isSome then .ok unchanged
        else
          match (if job.persist = some true then
                   (createJobRun s job.id now freshRunId now).map
                     (fun p => (p.1, some p.2.id))
                 else .ok (s, (none : Option String))) with
          | .error _ =>
              -- `createJobRun` threw: caught, no run and no lock to release
              .ok unchanged
          | .ok (s1, runId) =>
              let ctx := effectiveContext job dynCtx
              if ctx.distributed = some true then
                let ttl := (match ctx.ttl with
                  | some t => if t = 0 then 30 else t
                  | none => 30) * 1000
                let (locks1, res) :=
                  acquireLock locks now ("lock:" ++ name) ttl
                    freshLockValue none
                if !res.acquired then
                  -- early return: debug line only, no JobRun update
                  .ok { storage := s1, locks := locks1
                        activeLocks := activeLocks
                        createdRunId := runId, runUpdates := [] }
                else
                  let lv := res.lockValue.getD freshLockValue
                  let al1 := aset activeLocks ("lock:" ++ name)
                    { lockValue := lv, acquiredAt := now, ttlMs := ttl
                      jobName := name }
                  .ok (runExecutionPhase job s1 locks1 al1 ctx exec runId
                    (some lv) name now)
              else
                .ok (runExecutionPhase job s1 locks activeLocks ctx exec
                  runId none name now)

/-! ## Crypto envelope (dist/core/manager.js lines 933-971)

Strings of bytes are `List Nat` with every element below 256; plaintext
strings enter as their UTF-8 byte sequences.  PBKDF2-HMAC-SHA256 and the
AES-256-CTR keystream are external primitives of node:crypto; they enter
as the parameters `kdf` (secret × salt to derived key) and `keystream`
(key × IV × byte index to keystream byte) — every theorem below holds
for every instantiation, in particular for the real primitives. -/

/-- Lowercase hex digit, as produced by `cipher.update(..., 'hex')`. -/
def hexDigitChar (n : Nat) : Char :=
  if n < 10 then Char.ofNat (48 + n) else Char.ofNat (87 + n)

def hexValOfChar (c : Char) : Nat :=
  if 97 ≤ c.toNat then c.toNat - 87 else c.toNat - 48

/-- `Buffer.toString('hex')`. -/
def bytesToHex (bs : List Nat) : List Char :=
  bs.foldr (fun b acc => hexDigitChar (b / 16) :: hexDigitChar (b % 16) :: acc) []

/-- `Buffer.from(str, 'hex')`. -/
def hexToBytes : List Char → List Nat
  | c1 :: c2 :: rest => (hexValOfChar c1 * 16 + hexValOfChar c2) :: hexToBytes rest
  | _ => []

/-- Sextet of the standard base64 alphabet. -/
def b64Char (n : Nat) : Char :=
  if n < 26 then Char.ofNat (65 + n)
  else if n < 52 then Char.ofNat (97 + (n - 26))
  else if n < 62 then Char.ofNat (48 + (n - 52))
  else if n = 62 then Char.ofNat 43
  else Char.ofNat 47

def b64Val (c : Char) : Nat :=
  if c.toNat = 43 then 62
  else if c.toNat = 47 then 63
  else if 97 ≤ c.toNat then c.toNat - 71
  else if 65 ≤ c.toNat then c.toNat - 65
  else c.toNat + 4

def eqChar : Char := Char.ofNat 61

/-- `Buffer.toString('base64')` with standard padding. -/
def b64Encode : List Nat → List Char
  | [] => []
  | [a] => [b64Char (a / 4), b64Char ((a % 4) * 16), eqChar, eqChar]
  | [a, b] => [b64Char (a / 4), b64Char ((a % 4) * 16 + b / 16),
      b64Char ((b % 16) * 4), eqChar]
  | a :: b :: c :: rest =>
      b64Char (a / 4) :: b64Char ((a % 4) * 16 + b / 16) ::
      b64Char ((b % 16) * 4 + c / 64) :: b64Char (c % 64) :: b64Encode rest

/-- `Buffer.from(str, 'base64')`. -/
def b64Decode : List Char → List Nat
  | c1 :: c2 :: c3 :: c4 :: rest =>
      if c3 = eqChar then [b64Val c1 * 4 + b64Val c2 / 16]
      else if c4 = eqChar then
        [b64Val c1 * 4 + b64Val c2 / 16,
         (b64Val c2 % 16) * 16 + b64Val c3 / 4]
      else
        (b64Val c1 * 4 + b64Val c2 / 16) ::
        ((b64Val c2 % 16) * 16 + b64Val c3 / 4) ::
        ((b64Val c3 % 4) * 64 + b64Val c4) :: b64Decode rest
  | _ => []

/-- AES-256-CTR as an XOR stream: `createCipheriv('aes-256-ctr', key, iv)`
and `createDecipheriv` both XOR the data against the keystream generated
from the key and IV, byte by byte. -/
def ctrCrypt (ks : Nat → Nat) (data : List Nat) : List Nat :=
  data.mapIdx (fun i b => b ^^^ ks i)

def isLowerAlpha (c : Char) : Bool := 97 ≤ c.toNat && c.toNat ≤ 122

def isUpperAlpha (c : Char) : Bool := 65 ≤ c.toNat && c.toNat ≤ 90

/-- Code points of the special-character class in
`validateQuerySecret`. -/
def querySpecialCodes : List Nat :=
  [33, 64, 35, 36, 37, 94, 38, 42, 40, 41, 95, 43, 45, 61, 91, 93, 123,
   125, 59, 39, 58, 34, 92, 124, 44, 46, 60, 62, 47, 63]

def isQuerySpecial (c : Char) : Bool := querySpecialCodes.contains c.toNat

/-- `/(.)\1{3,}/`: four or more equal consecutive characters. -/
def hasRepeatRun : List Char → Bool
  | a :: b :: c :: d :: rest =>
      (a = b && b = c && c = d) || hasRepeatRun (b :: c :: d :: rest)
  | _ => false

def startsWithSeq : List Char → List Char → Bool
  | [], _ => true
  | _ :: _, [] => false
  | n :: ns, h :: hs => n = h && startsWithSeq ns hs

/-- Substring test (`/pat/.test(secret)` for a literal pattern). -/
def containsSeq (needle : List Char) : List Char → Bool
  | [] => needle.isEmpty
  | h :: hs => startsWithSeq needle (h :: hs) || containsSeq needle hs

/-- `Manager.validateQuerySecret(secret)` (manager.js lines 82-114) as a
Boolean acceptance test: length at least 32, at least three of the four
character classes, and none of the weak patterns (`i`-flagged patterns
are checked against the lowercased secret). -/
def validateQuerySecret (secret : List Char) : Bool :=
  let lower := secret.map Char.toLower
  decide (32 ≤ secret.length) &&
  (decide (3 ≤ (([secret.any isLowerAlpha, secret.any isUpperAlpha,
      secret.any Char.isDigit,
      secret.any isQuerySpecial]).filter id).length)) &&
  !hasRepeatRun secret &&
  !containsSeq "123456".toList secret &&
  !containsSeq "abcdef".toList lower &&
  !containsSeq "password".toList lower &&
  !containsSeq "secret".toList lower &&
  !containsSeq "admin".toList lower &&
  !containsSeq "qwerty".toList lower

/-- `Manager.encryptQuery(text)` (manager.js lines 933-949): derive the
key from the secret and a fresh 32-byte salt, AES-256-CTR the plaintext
under a fresh 16-byte IV (through the hex intermediate of
`cipher.update(.., 'utf8', 'hex')` and `Buffer.from(.., 'hex')`), and
emit base64 of IV, then salt, then ciphertext. -/
def encryptQuery (kdf : List Char → List Nat → List Nat)
    (keystream : List Nat → List Nat → Nat → Nat) (secret : List Char)
    (iv salt : List Nat) (text : List Nat) : List Char :=
  let key := kdf secret salt
  let encryptedHex := bytesToHex (ctrCrypt (keystream key iv) text)
  let combined := iv ++ salt ++ hexToBytes encryptedHex
  b64Encode combined

/-- `Manager.decryptQuery(encryptedData)` (manager.js lines 950-971):
decode the base64 envelope, split it at offsets 16 and 48 into IV, salt
and ciphertext, derive the key identically, and XOR the same keystream
back off. -/
def decryptQuery (kdf : List Char → List Nat → List Nat)
    (keystream : List Nat → List Nat → Nat → Nat) (secret : List Char)
    (encryptedData : List Char) : List Nat :=
  let combined := b64Decode encryptedData
  let iv := combined.take 16
  let salt := (combined.drop 16).take 32
  let encrypted := combined.drop 48
  let key := kdf secret salt
  ctrCrypt (keystream key iv) encrypted

/-! ## Concrete inputs used by witnesses and counterexamples -/

def demoFlags : ManagerFlags := { isInitialized := true, isDestroyed := false }

def demoMgr : Mgr :=
  { flags := demoFlags, hasHandler := true, hasQuerySecret := false }

/-- One Control row `c1` at version `v0` with two replicas. -/
def demoControl : Control :=
  { id := "c1", enabled := true, replicas := ["r1", "self"], stale := []
    version := "v0" }

def demoControlState : StorageState :=
  { emptyStorage with controls := [("c1", demoControl)] }

def demoJobA1 : Job :=
  { id := "id1", name := "a1", type := .inline, enabled := true }

def demoWatchJob : Job :=
  { id := "idw", name := watchJobName, type := .query, enabled := true
    persist := some false, cron := some "*/5 * * * * *" }

/-- Storage holding one ordinary job and the reserved watch job. -/
def demoJobsState : StorageState :=
  { emptyStorage with
    jobs := [("id1", demoJobA1), ("idw", demoWatchJob)]
    jobsByName := [("a1", "id1"), (watchJobName, "idw")] }

/-- A persisted, distributed job for the execution-pipeline claims. -/
def demoDistJob : Job :=
  { id := "idj", name := "j", type := .inline, enabled := true
    persist := some true
    context := some { distributed := some true, ttl := some 5 } }

def demoC6Storage : StorageState :=
  { emptyStorage with
    jobs := [("idj", demoDistJob)]
    jobsByName := [("j", "idj")] }

/-- A foreign, unexpired lock on `lock:j`, so acquisition at time 100
fails. -/
def demoC6Locks : LockMap :=
  [("lock:j", { value := "other-replica", expiresAt := 99999 })]

/-- A filter matching no stored job, with `page = page_size = 1`. -/
def demoZFilter : JobFilter :=
  { name := some "zzz", page := some 1, page_size := some 1 }

def demoActiveLocks : ActiveLocks :=
  [("lock:a", { lockValue := "va", acquiredAt := 0, ttlMs := 10
                jobName := "a" }),
   ("lock:b", { lockValue := "vb", acquiredAt := 90, ttlMs := 10
                jobName := "b" })]

/-- The single termination write a surviving run receives: completion
with the serialized result, or failure with the lens frames. -/
def terminationUpdate (exec : ExecOutcome) (now : Nat) : UpdateJobRun :=
  match exec with
  | .ok v fs => { completed := some now, result := some (serializeResult v fs) }
  | .threw _ fs =>
      { failed := some now
        result := some (.frames (fs ++ ["Job execution failed"])) }

/-- Witness primitives for the crypto theorem: a constant key-derivation
function and a zero keystream (the theorem holds for every choice,
including the real PBKDF2/AES pair). -/
def wkdf : List Char → List Nat → List Nat := fun _ _ => List.replicate 32 7

def wks : List Nat → List Nat → Nat → Nat := fun _ _ _ => 0

def wsecret : List Char := "Aa1!Aa1!Aa1!Aa1!Aa1!Aa1!Aa1!Aa1!".toList

def wiv1 : List Nat := List.replicate 16 1

def wiv2 : List Nat := List.replicate 16 2

def wsalt : List Nat := List.replicate 32 3

/-- "SELECT 1" as UTF-8 bytes. -/
def wtext : List Nat := [83, 69, 76, 69, 67, 84, 32, 49]

/-- The per-row filter guarantees in the findJobs claim: the row is not
the watch job and satisfies each criterion the filter carries (an
empty-string name filter is skipped by JS truthiness). -/
def C8DataOk (f : JobFilter) (j : Job) : Prop :=
  j.name ≠ watchJobName ∧
  (f.deleted = .isNull → j.deleted = none) ∧
  (f.deleted = .notNull → j.deleted ≠ none) ∧
  (∀ n, f.name = some n → n ≠ "" → j.name = n) ∧
  (∀ t, f.type = some t → j.type = t) ∧
  (∀ b, f.enabled = some b → j.enabled = b)

/-- The amended findJobs claim: correct filtering and watch exclusion;
the `[1, last_page]` clamp holds whenever the filtered set is nonempty;
on an empty filtered set the data is empty and `current_page` degenerates
to `0` (given a `page_size`) or `NaN`. -/
def C8Statement (s : StorageState) (f : JobFilter) : Prop :=
  (∀ j ∈ (findJobs s (some f)).data, C8DataOk f j) ∧
  (0 < (findJobs s (some f)).pagination.total →
    ∃ cp lp, (findJobs s (some f)).pagination.current_page = some cp ∧
      (findJobs s (some f)).pagination.last_page = some lp ∧
      1 ≤ cp ∧ cp ≤ lp) ∧
  ((findJobs s (some f)).pagination.total = 0 →
    (findJobs s (some f)).data = [] ∧
    ((findJobs s (some f)).pagination.current_page = some 0 ∨
     (findJobs s (some f)).pagination.current_page = none))

/-- The system-name protection claim, for one manager configuration:
every mutation API rejects a system name (as the target job's current
name or as the requested name), `listJobs` never returns the watch job,
and `getJob` on the watch job's id returns null. -/
def C4Statement (mgr : Mgr) (cronValid : String → Bool)
    (encrypt : String → String) : Prop :=
  (∀ s d fid fv now, isSystemName d.name = true →
    ∃ msg, mCreateJob mgr s cronValid encrypt d fid fv now =
      .error (.validation msg)) ∧
  (∀ s id d fv now j, findJob s id = some j → isSystemName j.name = true →
    ∃ msg, mUpdateJob mgr s cronValid encrypt id d fv now =
      .error (.validation msg)) ∧
  (∀ s id d fv now n, d.name = some n → isSystemName n = true →
    ∃ msg, mUpdateJob mgr s cronValid encrypt id d fv now =
      .error (.validation msg)) ∧
  (∀ s id fv now j, findJob s id = some j → isSystemName j.name = true →
    ∃ msg, mToggleJob mgr s cronValid encrypt id fv now =
      .error (.validation msg)) ∧
  (∀ s id fv now j, findJob s id = some j → isSystemName j.name = true →
    ∃ msg, mEnableJob mgr s cronValid encrypt id fv now =
      .error (.validation msg)) ∧
  (∀ s id fv now j, findJob s id = some j → isSystemName j.name = true →
    ∃ msg, mDisableJob mgr s cronValid encrypt id fv now =
      .error (.validation msg)) ∧
  (∀ s id now j, findJob s id = some j → isSystemName j.name = true →
    ∃ msg, mDeleteJob mgr s id now = .error (.validation msg)) ∧
  (∀ s f, ∃ r, mListJobs mgr s f = .ok r ∧
    ∀ j ∈ r.data, j.name ≠ watchJobName) ∧
  (∀ s id j, id ≠ "" → findJob s id = some j → j.name = watchJobName →
    mGetJob mgr s id = .ok none)

/-! ## Helper lemmas -/

theorem lockLookup_lockRemove_self (m : LockMap) (k : String) :
    lockLookup (lockRemove m k) k = none := by
  induction m with
  | nil => rfl
  | cons e rest ih =>
      by_cases h : e.1 = k
      · simpa [lockRemove, lockLookup, h] using ih
      · simpa [lockRemove, lockLookup, h] using ih

theorem lockLookup_lockSet_self (m : LockMap) (k : String) (v : LockData) :
    lockLookup (lockSet m k v) k = some v := by
  simp [lockSet, lockLookup]

theorem alookup_aset_self {α : Type} (m : List (String × α)) (k : String)
    (v : α) : alookup (aset m k v) k = some v := by
  simp [aset, alookup]

/-! ## Claim theorems -/

/-- C3: `releaseLock(k, v)` returns true iff a lock is currently stored
at `k` with value exactly `v`, and in that case removes it, so a second
release of the same pair returns false; with a mismatched value it
returns false and leaves the stored lock unchanged. -/
theorem claim_C3 (locks : LockMap) (k v : String) :
    ((releaseLock locks k v).2 = true ↔
      ∃ e, lockLookup locks k = some e ∧ e.value = v) ∧
    ((releaseLock locks k v).2 = true →
      (releaseLock locks k v).1 = lockRemove locks k ∧
      (releaseLock (releaseLock locks k v).1 k v).2 = false) ∧
    ((releaseLock locks k v).2 = false →
      (releaseLock locks k v).1 = locks) := by
  rcases h : lockLookup locks k with _ | e
  · simp [releaseLock, h]
  · by_cases hv : e.value = v
    · refine ⟨?_, ?_, ?_⟩
      · constructor
        · intro _
          exact ⟨e, rfl, hv⟩
        · intro _
          simp [releaseLock, h, hv]
      · intro _
        refine ⟨by simp [releaseLock, h, hv], ?_⟩
        simp [releaseLock, h, hv, lockLookup_lockRemove_self]
      · intro hfalse
        simp [releaseLock, h, hv] at hfalse
    · refine ⟨?_, ?_, ?_⟩
      · constructor
        · intro htrue
          simp [releaseLock, h, hv] at htrue
        · rintro ⟨e2, he2, hv2⟩
          injection he2 with he3
          subst he3
          exact absurd hv2 hv
      · intro htrue
        simp [releaseLock, h, hv] at htrue
      · intro _
        simp [releaseLock, h, hv]

/-- C3 witness at a concrete map: release succeeds with the stored value
and a repeat release fails. -/
theorem claim_C3_witness :
    ((releaseLock demoLocks "lock:job-x" "v1").2 = true ↔
      ∃ e, lockLookup demoLocks "lock:job-x" = some e ∧ e.value = "v1") ∧
    ((releaseLock demoLocks "lock:job-x" "v1").2 = true →
      (releaseLock demoLocks "lock:job-x" "v1").1 =
        lockRemove demoLocks "lock:job-x" ∧
      (releaseLock (releaseLock demoLocks "lock:job-x" "v1").1
        "lock:job-x" "v1").2 = false) ∧
    ((releaseLock demoLocks "lock:job-x" "v1").2 = false →
      (releaseLock demoLocks "lock:job-x" "v1").1 = demoLocks) :=
  claim_C3 demoLocks "lock:job-x" "v1"

/-- C1: with the cache serializing its operations, two acquisitions of
the same key — starting from a state with no unexpired lock on it, the
second arriving while the winner's lock is unexpired — produce exactly
one winner: the first caller gets `acquired=true` with its lock value,
the second gets `{acquired:false}`.  The same holds for the Redis
implementation's `SET NX PX`. -/
theorem claim_C1 (locks : LockMap) (rds : RedisState) (keyPre key : String)
    (now1 now2 ttl1 ttl2 : Nat) (v1 v2 w1 w2 : String)
    (h0 : lockBlocked locks key now1 = false)
    (hr0 : redisLive rds (keyPre ++ "lock:" ++ key) now1 = false)
    (h2 : now2 < now1 + ttl1) :
    (acquireLock locks now1 key ttl1 v1 none).2 =
      { acquired := true, lockValue := some v1
        expiresAt := some (now1 + ttl1) } ∧
    (acquireLock (acquireLock locks now1 key ttl1 v1 none).1
        now2 key ttl2 v2 none).2 =
      { acquired := false, lockValue := none, expiresAt := none } ∧
    (redisAcquireLock rds now1 keyPre key ttl1 w1 none).2 =
      { acquired := true, lockValue := some w1
        expiresAt := some (now1 + ttl1) } ∧
    (redisAcquireLock (redisAcquireLock rds now1 keyPre key ttl1 w1 none).1
        now2 keyPre key ttl2 w2 none).2 =
      { acquired := false, lockValue := none, expiresAt := none } := by
  refine ⟨?_, ?_, ?_, ?_⟩
  · simp [acquireLock, h0]
  · have hset : (acquireLock locks now1 key ttl1 v1 none).1 =
        lockSet locks key { value := v1, expiresAt := now1 + ttl1 } := by
      simp [acquireLock, h0]
    rw [hset]
    have hblocked : lockBlocked
        (lockSet locks key { value := v1, expiresAt := now1 + ttl1 })
        key now2 = true := by
      simp [lockBlocked, lockLookup_lockSet_self, h2]
    simp [acquireLock, hblocked]
  · simp [redisAcquireLock, redisSetNxPx, hr0]
  · have hfirst : (redisAcquireLock rds now1 keyPre key ttl1 w1 none).1 =
        (keyPre ++ "lock:" ++ key,
          ({ value := w1, expiresAt := some (now1 + ttl1) } : RedisEntry)) ::
          redisRemoveKey rds (keyPre ++ "lock:" ++ key) := by
      simp [redisAcquireLock, redisSetNxPx, hr0]
    rw [hfirst]
    have hlive : redisLive
        ((keyPre ++ "lock:" ++ key,
          ({ value := w1, expiresAt := some (now1 + ttl1) } : RedisEntry)) ::
          redisRemoveKey rds (keyPre ++ "lock:" ++ key))
        (keyPre ++ "lock:" ++ key) now2 = true := by
      simp [redisLive, redisLookup, h2]
    simp [redisAcquireLock, redisSetNxPx, hlive]

/-- C1 witness: two acquisitions on an empty cache at times 0 and 1000
with a 5000 ms TTL. -/
theorem claim_C1_witness :
    (acquireLock [] 0 "job-x" 5000 "va" none).2 =
      { acquired := true, lockValue := some "va", expiresAt := some 5000 } ∧
    (acquireLock (acquireLock [] 0 "job-x" 5000 "va" none).1
        1000 "job-x" 5000 "vb" none).2 =
      { acquired := false, lockValue := none, expiresAt := none } ∧
    (redisAcquireLock [] 0 "cron:" "job-x" 5000 "wa" none).2 =
      { acquired := true, lockValue := some "wa", expiresAt := some 5000 } ∧
    (redisAcquireLock (redisAcquireLock [] 0 "cron:" "job-x" 5000 "wa"
        none).1 1000 "cron:" "job-x" 5000 "wb" none).2 =
      { acquired := false, lockValue := none, expiresAt := none } :=
  claim_C1 [] [] "cron:" "job-x" 0 1000 5000 5000 "va" "vb" "wa" "wb"
    (by simp [lockBlocked, lockLookup]) (by simp [redisLive, redisLookup])
    (by decide)

theorem destroyFlags_fst_destroyed (m : ManagerFlags) :
    (destroyFlags m).1.isDestroyed = true := by
  by_cases h : m.isDestroyed <;> simp [destroyFlags, h]

theorem initializeFlags_destroyed (m : ManagerFlags) (ok : Bool) :
    (initializeFlags m ok).isDestroyed = m.isDestroyed := by
  by_cases h : m.isInitialized <;> by_cases h2 : ok <;>
    simp [initializeFlags, h, h2]

theorem runOps_destroyed (ops : List MgrOp) (m : ManagerFlags)
    (h : m.isDestroyed = true) : (runOps m ops).isDestroyed = true := by
  induction ops generalizing m with
  | nil => exact h
  | cons op rest ih =>
      cases op with
      | initOp ok =>
          simp only [runOps]
          exact ih _ (by rw [initializeFlags_destroyed]; exact h)
      | destroyOp =>
          simp only [runOps]
          exact ih _ (destroyFlags_fst_destroyed m)

/-- C10: once `destroy()` has run, the destroyed flag survives any
further sequence of `initialize`/`destroy` calls, so the
ensure-initialized gate — and with it every public API that begins with
it — fails with "Manager has been destroyed."; a second `destroy()`
returns without running its cleanup body again. -/
theorem claim_C10 (m : ManagerFlags) (ops : List MgrOp) (mgr : Mgr)
    (s : StorageState) (cronValid : String → Bool)
    (encrypt : String → String) (d : CreateJob) (du : UpdateJob)
    (id fid fv : String) (now : Nat) (f : Option JobFilter)
    (hmgr : mgr.flags = runOps (destroyFlags m).1 ops) :
    ensureInitialized (runOps (destroyFlags m).1 ops) =
      .error (.generic "Manager has been destroyed.") ∧
    destroyFlags (destroyFlags m).1 = ((destroyFlags m).1, false) ∧
    mCreateJob mgr s cronValid encrypt d fid fv now =
      .error (.generic "Manager has been destroyed.") ∧
    mUpdateJob mgr s cronValid encrypt id du fv now =
      .error (.generic "Manager has been destroyed.") ∧
    mToggleJob mgr s cronValid encrypt id fv now =
      .error (.generic "Manager has been destroyed.") ∧
    mEnableJob mgr s cronValid encrypt id fv now =
      .error (.generic "Manager has been destroyed.") ∧
    mDisableJob mgr s cronValid encrypt id fv now =
      .error (.generic "Manager has been destroyed.") ∧
    mDeleteJob mgr s id now =
      .error (.generic "Manager has been destroyed.") ∧
    mGetJob mgr s id = .error (.generic "Manager has been destroyed.") ∧
    mListJobs mgr s f = .error (.generic "Manager has been destroyed.") := by
  have hdes : (runOps (destroyFlags m).1 ops).isDestroyed = true :=
    runOps_destroyed ops _ (destroyFlags_fst_destroyed m)
  have hgate : ensureInitialized (runOps (destroyFlags m).1 ops) =
      .error (.generic "Manager has been destroyed.") := by
    simp [ensureInitialized, hdes]
  have hgate2 : ensureInitialized mgr.flags =
      .error (.generic "Manager has been destroyed.") := by
    rw [hmgr]; exact hgate
  have hsecond : destroyFlags (destroyFlags m).1 =
      ((destroyFlags m).1, false) := by
    have h1 := destroyFlags_fst_destroyed m
    generalize hmd : (destroyFlags m).1 = md at h1 ⊢
    simp [destroyFlags, h1]
  refine ⟨hgate, hsecond, ?_, ?_, ?_, ?_, ?_, ?_, ?_, ?_⟩ <;>
    simp [mCreateJob, mUpdateJob, mToggleJob, mEnableJob, mDisableJob,
      mDeleteJob, mGetJob, mListJobs, hgate2, Bind.bind, Except.bind]

/-- C10 witness: a destroyed manager stays unusable across a subsequent
`initialize()`. -/
theorem claim_C10_witness :
    ensureInitialized (runOps (destroyFlags demoFlags).1
      [MgrOp.initOp true]) =
      .error (.generic "Manager has been destroyed.") ∧
    destroyFlags (destroyFlags demoFlags).1 =
      ((destroyFlags demoFlags).1, false) ∧
    mCreateJob
      { flags := runOps (destroyFlags demoFlags).1 [MgrOp.initOp true]
        hasHandler := false, hasQuerySecret := false }
      emptyStorage (fun _ => true) (fun q => q)
      { name := "x", type := .inline, enabled := true } "fid" "fv" 0 =
      .error (.generic "Manager has been destroyed.") ∧
    mUpdateJob
      { flags := runOps (destroyFlags demoFlags).1 [MgrOp.initOp true]
        hasHandler := false, hasQuerySecret := false }
      emptyStorage (fun _ => true) (fun q => q) "id1" {} "fv" 0 =
      .error (.generic "Manager has been destroyed.") ∧
    mToggleJob
      { flags := runOps (destroyFlags demoFlags).1 [MgrOp.initOp true]
        hasHandler := false, hasQuerySecret := false }
      emptyStorage (fun _ => true) (fun q => q) "id1" "fv" 0 =
      .error (.generic "Manager has been destroyed.") ∧
    mEnableJob
      { flags := runOps (destroyFlags demoFlags).1 [MgrOp.initOp true]
        hasHandler := false, hasQuerySecret := false }
      emptyStorage (fun _ => true) (fun q => q) "id1" "fv" 0 =
      .error (.generic "Manager has been destroyed.") ∧
    mDisableJob
      { flags := runOps (destroyFlags demoFlags).1 [MgrOp.initOp true]
        hasHandler := false, hasQuerySecret := false }
      emptyStorage (fun _ => true) (fun q => q) "id1" "fv" 0 =
      .error (.generic "Manager has been destroyed.") ∧
    mDeleteJob
      { flags := runOps (destroyFlags demoFlags).1 [MgrOp.initOp true]
        hasHandler := false, hasQuerySecret := false }
      emptyStorage "id1" 0 =
      .error (.generic "Manager has been destroyed.") ∧
    mGetJob
      { flags := runOps (destroyFlags demoFlags).1 [MgrOp.initOp true]
        hasHandler := false, hasQuerySecret := false }
      emptyStorage "id1" = .error (.generic "Manager has been destroyed.") ∧
    mListJobs
      { flags := runOps (destroyFlags demoFlags).1 [MgrOp.initOp true]
        hasHandler := false, hasQuerySecret := false }
      emptyStorage none = .error (.generic "Manager has been destroyed.") :=
  claim_C10 demoFlags [MgrOp.initOp true]
    { flags := runOps (destroyFlags demoFlags).1 [MgrOp.initOp true]
      hasHandler := false, hasQuerySecret := false }
    emptyStorage (fun _ => true) (fun q => q)
    { name := "x", type := .inline, enabled := true } {} "id1" "fid" "fv" 0
    none rfl

theorem foldl_aremove_eq_filter {α : Type} (ks : List String)
    (l : List (String × α)) :
    ks.foldl (fun acc k => aremove acc k) l =
      l.filter (fun e => !(ks.contains e.1)) := by
  induction ks generalizing l with
  | nil => simp
  | cons k ks ih =>
      simp only [List.foldl_cons]
      rw [ih]
      show (aremove l k).filter _ = _
      rw [aremove, List.filter_filter]
      apply List.filter_congr
      intro e _
      cases hk : e.1 == k <;> cases hc : ks.contains e.1 <;>
        simp_all [List.contains_cons]

theorem alookup_of_mem_nodup {α : Type} {l : List (String × α)}
    (hnd : (l.map Prod.fst).Nodup) {k : String} {v : α}
    (hm : (k, v) ∈ l) : alookup l k = some v := by
  induction l with
  | nil => cases hm
  | cons e l ih =>
      rcases List.mem_cons.mp hm with h1 | h1
      · subst h1
        simp [alookup]
      · have hk : e.1 ≠ k := by
          intro hek
          have : k ∈ l.map Prod.fst := List.mem_map.mpr ⟨(k, v), h1, rfl⟩
          exact (List.nodup_cons.mp (by simpa using hnd)).1 (hek ▸ this)
        simp only [alookup, hk, if_neg hk]
        exact ih (List.nodup_cons.mp (by simpa using hnd)).2 h1

theorem filterMap_eq_map_of_forall {α β : Type} {l : List α}
    {f : α → Option β} {g : α → β} (h : ∀ a ∈ l, f a = some (g a)) :
    l.filterMap f = l.map g := by
  induction l with
  | nil => rfl
  | cons a l ih =>
      simp only [List.filterMap_cons, h a (by simp), List.map_cons]
      rw [ih (fun x hx => h x (by simp [hx]))]

theorem contains_map_fst_filter {α : Type} {l : List (String × α)}
    (hnd : (l.map Prod.fst).Nodup) (p : String × α → Bool)
    {e : String × α} (he : e ∈ l) :
    ((l.filter p).map Prod.fst).contains e.1 = p e := by
  cases hp : p e
  · rw [Bool.eq_false_iff]
    intro hcon
    rw [List.contains_eq_any_beq, List.any_eq_true] at hcon
    obtain ⟨k2, hk2mem, hk2eq⟩ := hcon
    obtain ⟨e2, he2mem, rfl⟩ := List.mem_map.mp hk2mem
    have he2l := (List.mem_filter.mp he2mem).1
    have he2p := (List.mem_filter.mp he2mem).2
    have : e = e2 := List.inj_on_of_nodup_map hnd he he2l
      (by simpa [eq_comm] using (beq_iff_eq.mp hk2eq))
    rw [this, he2p] at hp
    cases hp
  · rw [List.contains_eq_any_beq, List.any_eq_true]
    exact ⟨e.1, List.mem_map.mpr ⟨e, List.mem_filter.mpr ⟨he, hp⟩, rfl⟩,
      by simp⟩

/-- C9: on a watchdog tick, every `activeLocks` entry older than twice
its TTL gets a cache release attempt with its stored lock value and is
deleted from the table regardless of the release outcome; entries at or
under the threshold are left in place. -/
theorem claim_C9 (activeLocks : ActiveLocks) (now : Nat)
    (release : String → String → Bool)
    (hnd : (activeLocks.map Prod.fst).Nodup) :
    (detectAndHandleDeadlocks false activeLocks now release).1 =
      activeLocks.filter (fun e => !(isStaleLock now e.2)) ∧
    (detectAndHandleDeadlocks false activeLocks now release).2 =
      (activeLocks.filter (fun e => isStaleLock now e.2)).map
        (fun e => (e.1, e.2.lockValue)) := by
  by_cases hemp : activeLocks.isEmpty
  · have h0 : activeLocks = [] := List.isEmpty_iff.mp hemp
    subst h0
    simp [detectAndHandleDeadlocks]
  · unfold detectAndHandleDeadlocks
    rw [if_neg (by simp [hemp])]
    dsimp only
    constructor
    · rw [foldl_aremove_eq_filter]
      apply List.filter_congr
      intro e he
      rw [contains_map_fst_filter hnd _ he]
    · rw [List.filterMap_map]
      rw [filterMap_eq_map_of_forall
        (g := fun e => (e.1, e.2.lockValue))]
      intro e he
      have hel := (List.mem_filter.mp he).1
      have : alookup activeLocks e.1 = some e.2 := by
        rcases e with ⟨k, v⟩
        exact alookup_of_mem_nodup hnd hel
      simp only [Function.comp, this]

/-- C9 witness: of two tracked locks at tick time 100, the one aged 100 s
against a 10 ms TTL is released-and-dropped, the fresh one survives. -/
theorem claim_C9_witness :
    (detectAndHandleDeadlocks false demoActiveLocks 100
        (fun _ _ => true)).1 =
      demoActiveLocks.filter (fun e => !(isStaleLock 100 e.2)) ∧
    (detectAndHandleDeadlocks false demoActiveLocks 100
        (fun _ _ => true)).2 =
      (demoActiveLocks.filter (fun e => isStaleLock 100 e.2)).map
        (fun e => (e.1, e.2.lockValue)) :=
  claim_C9 demoActiveLocks 100 (fun _ _ => true) (by decide)

theorem updateControl_version_const {s : StorageState} {id : String}
    {p : UpdateControl} {now : Nat} {c : Control}
    (hc : alookup s.controls id = some c) {s2 : StorageState} {c2 : Control}
    (hok : updateControl s id p now = .ok (s2, c2)) :
    c2.version = c.version := by
  rcases hv : p.version with _ | v
  · simp only [updateControl, hc, hv] at hok
    cases hok
    simp [applyControlPatch, hv]
  · by_cases hne : c.version ≠ v
    · simp only [updateControl, hc, hv, if_pos hne] at hok
      cases hok
    · simp only [updateControl, hc, hv, if_neg hne] at hok
      cases hok
      simp only [applyControlPatch, hv, Option.getD_some]
      exact (not_not.mp hne).symm

/-- C7 (amended): for an existing Control, `updateControl` fails with
Conflict exactly when the patch carries a version different from the
stored one; otherwise it applies the patch and refreshes `updated_at`.
But no patch can change the stored version: a successful update always
returns a row whose version equals the stored one (a provided version
must match it and is therefore a no-op write of the same value). -/
theorem claim_C7 (s : StorageState) (id : String) (p : UpdateControl)
    (now : Nat) (c : Control) (hc : alookup s.controls id = some c) :
    ((∃ v, p.version = some v ∧ v ≠ c.version) →
      updateControl s id p now =
        .error (.conflict "Control version mismatch")) ∧
    ((p.version = none ∨ p.version = some c.version) →
      updateControl s id p now =
        .ok ({ s with
                controls := (aset s.controls id (applyControlPatch c p now)) },
             applyControlPatch c p now)) ∧
    (applyControlPatch c p now).updated_at = now ∧
    (∀ s2 c2, updateControl s id p now = .ok (s2, c2) →
      c2.version = c.version) := by
  refine ⟨?_, ?_, ?_, ?_⟩
  · rintro ⟨v, hv, hne⟩
    simp only [updateControl, hc, hv,
      if_pos (show c.version ≠ v from fun h => hne h.symm)]
  · intro hsame
    rcases hsame with hv | hv
    · simp only [updateControl, hc, hv]
    · have hnn : ¬c.version ≠ c.version := by simp
      simp only [updateControl, hc, hv, if_neg hnn]
  · simp [applyControlPatch]
  · intro s2 c2 hok
    exact updateControl_version_const hc hok

/-- C7 witness: the amended theorem at a concrete Control (version
`v0`) and the patch `enabled := false, version := "bad"`. -/
theorem claim_C7_witness :
    ((∃ v, (({ enabled := some false, version := some "bad" } :
          UpdateControl)).version = some v ∧ v ≠ demoControl.version) →
      updateControl demoControlState "c1"
        { enabled := some false, version := some "bad" } 5 =
        .error (.conflict "Control version mismatch")) ∧
    (((({ enabled := some false, version := some "bad" } :
          UpdateControl)).version = none ∨
      (({ enabled := some false, version := some "bad" } :
          UpdateControl)).version = some demoControl.version) →
      updateControl demoControlState "c1"
        { enabled := some false, version := some "bad" } 5 =
        .ok ({ demoControlState with
                controls := (aset demoControlState.controls "c1"
                  (applyControlPatch demoControl
                    { enabled := some false, version := some "bad" } 5)) },
             applyControlPatch demoControl
               { enabled := some false, version := some "bad" } 5)) ∧
    (applyControlPatch demoControl
      { enabled := some false, version := some "bad" } 5).updated_at = 5 ∧
    (∀ s2 c2, updateControl demoControlState "c1"
        { enabled := some false, version := some "bad" } 5 = .ok (s2, c2) →
      c2.version = demoControl.version) :=
  claim_C7 demoControlState "c1"
    { enabled := some false, version := some "bad" } 5 demoControl
    (by decide)

/-- C7 counterexample to the claim as stated: at a concrete Control with
version `v0`, no patch whatsoever yields a successful update whose
stored version differs from `v0` — the claimed patch that changes the
version does not exist. -/
theorem claim_C7_counterexample :
    ¬ ∃ (p : UpdateControl) (s2 : StorageState) (c2 : Control),
        updateControl demoControlState "c1" p 5 = .ok (s2, c2) ∧
        c2.version ≠ "v0" := by
  rintro ⟨p, s2, c2, hok, hne⟩
  exact hne (updateControl_version_const (c := demoControl) (by decide) hok)

/-- C5 (code as it is): after `triggerReset` on a Control at version
`v0` with replicas `[r1, self]`, the stale set does become the full
replicas list, but the version is still `v0` — not the fresh token the
call passed (`updateControlWithRetry` overwrites the patch version with
the freshly read one, although `triggerReset` passes
`version: randomUUID()` under the comment "Force new version"). -/
theorem claim_C5 :
    getControl (triggerReset demoControlState "fresh-token" 7) =
      some { id := "c1", enabled := true, log_level := none
             replicas := ["r1", "self"], stale := ["r1", "self"]
             version := "v0", created_at := 0, updated_at := 7 } ∧
    ("fresh-token" : String) ≠ "v0" := by
  constructor
  · decide
  · decide

theorem findJobs_data_mem (s : StorageState) (f : JobFilter) :
    ∀ j ∈ (findJobs s (some f)).data,
      j ∈ ((s.jobs.map Prod.snd).filter
        (fun x => x.name ≠ watchJobName)).filter (jobMatches f) := by
  intro j hj
  unfold findJobs at hj
  dsimp only at hj
  split at hj
  · exact List.drop_subset _ _ (List.take_subset _ _ hj)
  · cases hj

/-- C8 (amended): `findJobs` returns only rows matching the filter,
always excludes the watch job, and clamps `current_page` to
`[1, last_page]` whenever the filtered result set is nonempty; when it is
empty the data is empty and `current_page` collapses to `0` (with a
`page_size`) or `NaN` instead of being clamped into `[1, last_page]`. -/
theorem claim_C8 (s : StorageState) (f : JobFilter) : C8Statement s f := by
  unfold C8Statement
  refine ⟨?_, ?_, ?_⟩
  · intro j hj
    have h2 := findJobs_data_mem s f j hj
    have h3 := List.mem_filter.mp h2
    have hwatch := (List.mem_filter.mp h3.1).2
    have hmatch := h3.2
    unfold jobMatches at hmatch
    simp only [Bool.and_eq_true] at hmatch
    obtain ⟨⟨⟨hname, htype⟩, henabled⟩, hdel⟩ := hmatch
    refine ⟨by simpa using hwatch, ?_, ?_, ?_, ?_, ?_⟩
    · intro hd
      rw [hd] at hdel
      simpa [Option.isNone_iff_eq_none] using hdel
    · intro hd
      rw [hd] at hdel
      simp only [Option.isSome_iff_exists] at hdel
      obtain ⟨x, hx⟩ := hdel
      simp [hx]
    · intro n hn hne
      rw [hn] at hname
      simpa [hne] using hname
    · intro t ht
      rw [ht] at htype
      simpa using htype
    · intro b hb
      rw [hb] at henabled
      simpa using henabled
  · intro htot
    unfold findJobs at htot ⊢
    dsimp only at htot ⊢
    generalize hT : (List.filter (jobMatches f)
      (List.filter (fun j => decide (j.name ≠ watchJobName))
        (List.map Prod.snd s.jobs))).length = T at htot ⊢
    rcases hps : f.page_size with _ | p <;> simp only [hps]
    · rw [if_neg (by omega)]
      refine ⟨_, _, rfl, rfl, ?_, ?_⟩
      · exact le_min (le_max_left _ _)
          ((Nat.one_le_div_iff (by omega)).mpr (by omega))
      · exact min_le_right _ _
    · by_cases hp0 : p = 0
      · subst hp0
        rw [if_pos rfl, if_neg (by omega)]
        refine ⟨_, _, rfl, rfl, ?_, ?_⟩
        · exact le_min (le_max_left _ _)
            ((Nat.one_le_div_iff (by omega)).mpr (by omega))
        · exact min_le_right _ _
      · simp only [if_neg hp0]
        refine ⟨_, _, rfl, rfl, ?_, ?_⟩
        · exact le_min (le_max_left _ _)
            ((Nat.one_le_div_iff (by omega)).mpr (by omega))
        · exact min_le_right _ _
  · intro htot
    unfold findJobs at htot ⊢
    dsimp only at htot ⊢
    have hnil : (List.filter (jobMatches f)
        (List.filter (fun j => decide (j.name ≠ watchJobName))
          (List.map Prod.snd s.jobs))) = [] := List.length_eq_zero.mp htot
    rw [hnil]
    simp only [List.length_nil]
    rcases hps : f.page_size with _ | p <;> simp only [hps]
    · simp
    · by_cases hp0 : p = 0
      · simp [hp0]
      · simp [hp0, Nat.div_eq_of_lt (show p - 1 < p by omega)]

/-- C8 witness: the amended statement at a storage holding one ordinary
job and a watch row, filtered by name `a1`. -/
theorem claim_C8_witness : C8Statement demoJobsState { name := some "a1" } :=
  claim_C8 demoJobsState { name := some "a1" }

/-- C8 counterexample to the clamp as claimed: with one stored job and a
filter matching nothing (`page_size` 1), the empty result set yields
`current_page = 0` and `last_page = 0`, so `current_page` is not in
`[1, last_page]`. -/
theorem claim_C8_counterexample :
    (findJobs demoJobsState (some demoZFilter)).pagination.current_page =
      some 0 ∧
    (findJobs demoJobsState (some demoZFilter)).pagination.last_page =
      some 0 ∧
    (0 : Nat) < 1 := by
  refine ⟨by decide, by decide, by decide⟩

theorem except_bind_ok {ε α β : Type} (a : α) (f : α → Except ε β) :
    (Except.ok a >>= f) = f a := rfl

theorem except_bind_err {ε α β : Type} (e : ε) (f : α → Except ε β) :
    ((Except.error e : Except ε α) >>= f) = .error e := rfl

theorem except_pure_bind {ε α β : Type} (a : α) (f : α → Except ε β) :
    ((pure a : Except ε α) >>= f) = f a := rfl

theorem except_throw_bind {ε α β : Type} (e : ε) (f : α → Except ε β) :
    ((throw e : Except ε α) >>= f) = .error e := rfl

theorem except_throw_eq {ε α : Type} (e : ε) :
    (throw e : Except ε α) = .error e := rfl

theorem ensureInitialized_ok {m : ManagerFlags}
    (hi : m.isInitialized = true) (hd : m.isDestroyed = false) :
    ensureInitialized m = .ok () := by
  simp [ensureInitialized, hi, hd]

theorem isSystemName_ne_empty {n : String} (h : isSystemName n = true) :
    n ≠ "" := by
  intro h0
  subst h0
  exact absurd h (by decide)

theorem validateJobAccess_system (n op : String)
    (h : isSystemName n = true) :
    ∃ msg, validateJobAccess n op = .error (.validation msg) := by
  unfold validateJobAccess validateJobAccessErr
  split_ifs with h1 h2 h3 h4 h5 h6 h7 <;> try exact ⟨_, rfl⟩
  exact absurd h (by simp [isSystemName, h2, h3, h4, h5])

theorem validateJobData_cases (hh : Bool) (cv : String → Bool) (iu : Bool)
    (d : UpdateJob) :
    validateJobData hh cv iu d = .ok () ∨
      ∃ msg, validateJobData hh cv iu d = .error (.validation msg) := by
  unfold validateJobData
  rcases h : validateJobDataErr hh cv iu d with _ | msg
  · exact Or.inl rfl
  · exact Or.inr ⟨msg, rfl⟩

theorem validateJobAccess_cases (n op : String) :
    validateJobAccess n op = .ok () ∨
      ∃ msg, validateJobAccess n op = .error (.validation msg) := by
  unfold validateJobAccess
  rcases h : validateJobAccessErr n op with _ | msg
  · exact Or.inl rfl
  · exact Or.inr ⟨msg, rfl⟩

/-- C4: for an initialized, non-destroyed manager, every public mutation
API rejects the system names (the watch name, or the `__` / `system:` /
`internal:` markers) with a validation error — as the created name, the
rename target, or the name of the job the id designates — `listJobs`
never returns the watch job and `getJob` hides it behind null. -/
theorem claim_C4 (mgr : Mgr) (cronValid : String → Bool)
    (encrypt : String → String) (hi : mgr.flags.isInitialized = true)
    (hd : mgr.flags.isDestroyed = false) :
    C4Statement mgr cronValid encrypt := by
  have hgate : ensureInitialized mgr.flags = .ok () :=
    ensureInitialized_ok hi hd
  unfold C4Statement
  refine ⟨?_, ?_, ?_, ?_, ?_, ?_, ?_, ?_, ?_⟩
  · -- createJob
    intro s d fid fv now hsys
    rcases validateJobData_cases mgr.hasHandler cronValid false d.toData
      with hok | ⟨msg, herr⟩
    · obtain ⟨msg, hacc⟩ := validateJobAccess_system d.name "create" hsys
      exact ⟨msg, by
        simp only [mCreateJob, hgate, except_bind_ok, hok, hacc,
          except_bind_err]⟩
    · exact ⟨msg, by
        simp only [mCreateJob, hgate, except_bind_ok, herr,
          except_bind_err]⟩
  · -- updateJob on a system-named target
    intro s id d fv now j hfind hsys
    rcases validateJobData_cases mgr.hasHandler cronValid true d
      with hok | ⟨msg, herr⟩
    · obtain ⟨msg, hacc⟩ := validateJobAccess_system j.name "update" hsys
      exact ⟨msg, by
        simp only [mUpdateJob, hgate, except_bind_ok, hfind, hok, hacc,
          except_bind_err]⟩
    · exact ⟨msg, by
        simp only [mUpdateJob, hgate, except_bind_ok, herr,
          except_bind_err]⟩
  · -- updateJob renaming to a system name
    intro s id d fv now n hname hsys
    rcases validateJobData_cases mgr.hasHandler cronValid true d
      with hok | ⟨msg, herr⟩
    · rcases hfind : findJob s id with _ | j
      · obtain ⟨msg, hacc⟩ := validateJobAccess_system n "update" hsys
        refine ⟨msg, ?_⟩
        simp only [mUpdateJob, hgate, except_bind_ok, hfind, hok, hname,
          hacc, except_bind_err, except_pure_bind]
        rw [if_pos (isSystemName_ne_empty hsys)]
      · rcases validateJobAccess_cases j.name "update" with haccj | ⟨m2, haccj⟩
        · obtain ⟨msg, hacc⟩ := validateJobAccess_system n "update" hsys
          refine ⟨msg, ?_⟩
          simp only [mUpdateJob, hgate, except_bind_ok, hfind, hok, haccj,
            hname, hacc, except_bind_err, except_pure_bind]
          rw [if_pos (isSystemName_ne_empty hsys)]
        · exact ⟨m2, by
            simp only [mUpdateJob, hgate, except_bind_ok, hfind, hok, haccj,
              except_bind_err]⟩
    · exact ⟨msg, by
        simp only [mUpdateJob, hgate, except_bind_ok, herr,
          except_bind_err]⟩
  · -- toggleJob
    intro s id fv now j hfind hsys
    by_cases hid : id = ""
    · exact ⟨"Job id is required", by
        simp [mToggleJob, hgate, hid, except_bind_ok, except_throw_bind]⟩
    · obtain ⟨msg, hacc⟩ := validateJobAccess_system j.name "toggle" hsys
      refine ⟨msg, ?_⟩
      simp only [mToggleJob, hgate, except_bind_ok, except_pure_bind]
      rw [if_neg hid]
      simp only [hfind, hacc, except_bind_err, except_pure_bind]
  · -- enableJob
    intro s id fv now j hfind hsys
    by_cases hid : id = ""
    · exact ⟨"Job ID is required", by
        simp [mEnableJob, hgate, hid, except_bind_ok, except_throw_bind]⟩
    · obtain ⟨msg, hacc⟩ := validateJobAccess_system j.name "enable" hsys
      refine ⟨msg, ?_⟩
      simp only [mEnableJob, hgate, except_bind_ok, except_pure_bind]
      rw [if_neg hid]
      simp only [hfind, hacc, except_bind_err, except_pure_bind]
  · -- disableJob
    intro s id fv now j hfind hsys
    by_cases hid : id = ""
    · exact ⟨"Job ID is required", by
        simp [mDisableJob, hgate, hid, except_bind_ok, except_throw_bind]⟩
    · obtain ⟨msg, hacc⟩ := validateJobAccess_system j.name "disable" hsys
      refine ⟨msg, ?_⟩
      simp only [mDisableJob, hgate, except_bind_ok, except_pure_bind]
      rw [if_neg hid]
      simp only [hfind, hacc, except_bind_err, except_pure_bind]
  · -- deleteJob
    intro s id now j hfind hsys
    by_cases hid : id = ""
    · exact ⟨"Job ID is required", by
        simp [mDeleteJob, hgate, hid, except_bind_ok, except_throw_bind]⟩
    · obtain ⟨msg, hacc⟩ := validateJobAccess_system j.name "delete" hsys
      refine ⟨msg, ?_⟩
      simp only [mDeleteJob, hgate, except_bind_ok, except_pure_bind]
      rw [if_neg hid]
      simp only [hfind, hacc, except_bind_err, except_pure_bind]
  · -- listJobs
    intro s f
    refine ⟨_, by simp only [mListJobs, hgate, except_bind_ok]; rfl, ?_⟩
    intro j hj
    have := (List.mem_filter.mp hj).2
    simpa using this
  · -- getJob on the watch id
    intro s id j hid hfind hwatch
    simp only [mGetJob, hgate, except_bind_ok, except_pure_bind]
    rw [if_neg hid]
    simp only [hfind, except_pure_bind]
    rw [if_pos hwatch]
    rfl

/-- C4 witness at a concrete initialized manager. -/
theorem claim_C4_witness :
    C4Statement demoMgr (fun _ => true) (fun q => q) :=
  claim_C4 demoMgr (fun _ => true) (fun q => q) rfl rfl

theorem runExecutionPhase_none (job : Job) (s1 : StorageState)
    (locks : LockMap) (al : ActiveLocks) (ctx : JobContext)
    (exec : ExecOutcome) (lockValue : Option String) (name : String)
    (now : Nat) :
    (runExecutionPhase job s1 locks al ctx exec none lockValue name
      now).runUpdates = [] ∧
    (runExecutionPhase job s1 locks al ctx exec none lockValue name
      now).createdRunId = none := by
  unfold runExecutionPhase
  rcases exec with ⟨v, frames⟩ | ⟨msg, frames⟩
  · by_cases hro : ctx.runOnce = some true
    · rw [if_pos hro]
      rcases hupd : storageUpdateJob s1 job.id
          (UpdateJob.mk none none (some false) none none none none none
            none) now with e | ⟨s2, j2⟩
      · simp only [hupd]
        unfold markRunFailed
        cases lockValue <;> simp
      · simp only [hupd]
        cases lockValue <;> simp
    · rw [if_neg hro]
      cases lockValue <;> simp
  · unfold markRunFailed
    cases lockValue <;> simp

theorem runExecutionPhase_some (job : Job) (s1 : StorageState)
    (locks : LockMap) (al : ActiveLocks) (ctx : JobContext)
    (exec : ExecOutcome) (rid : String) (lockValue : Option String)
    (name : String) (now : Nat) (j0 : Job)
    (hjob : alookup s1.jobs job.id = some j0) (run0 : JobRun)
    (hrun : alookup s1.jobRuns rid = some run0) :
    (runExecutionPhase job s1 locks al ctx exec (some rid) lockValue name
      now).runUpdates = [terminationUpdate exec now] ∧
    (runExecutionPhase job s1 locks al ctx exec (some rid) lockValue name
      now).createdRunId = some rid := by
  unfold runExecutionPhase
  rcases exec with ⟨v, frames⟩ | ⟨msg, frames⟩
  · by_cases hro : ctx.runOnce = some true
    · rw [if_pos hro]
      have hupd : storageUpdateJob s1 job.id
          (UpdateJob.mk none none (some false) none none none none none
            none) now =
          .ok ({ s1 with
                  jobs := aset s1.jobs job.id (applyJobPatch j0
                    (UpdateJob.mk none none (some false) none none none
                      none none none) now)
                  jobsByName := s1.jobsByName },
               applyJobPatch j0 (UpdateJob.mk none none (some false) none
                 none none none none none) now) := by
        simp [storageUpdateJob, hjob]
      simp only [hupd]
      have hrun2 : alookup ({ s1 with
          jobs := aset s1.jobs job.id (applyJobPatch j0
            (UpdateJob.mk none none (some false) none none none none none
              none) now)
          jobsByName := s1.jobsByName } : StorageState).jobRuns rid =
          some run0 := hrun
      simp only [updateJobRun, hrun2, terminationUpdate]
      cases lockValue <;> simp
    · rw [if_neg hro]
      simp only [updateJobRun, hrun, terminationUpdate]
      cases lockValue <;> simp
  · unfold markRunFailed
    simp only [updateJobRun, hrun, terminationUpdate]
    cases lockValue <;> simp

/-- C6 (amended): a JobRun is created exactly when the loaded job has
`persist = true`; a run that proceeds to execution receives exactly one
further mutation, its termination update (completion with the serialized
result, or failure with the lens frames); but on the path where the
effective context is distributed and the lock is not acquired, the
created run receives no termination update at all — it is mutated once,
at creation, not twice. -/
theorem claim_C6 (s : StorageState) (locks : LockMap) (al : ActiveLocks)
    (dynCtx : Option JobContext) (name : String) (exec : ExecOutcome)
    (freshRunId freshLockValue : String) (now : Nat) (job j0 : Job)
    (hfind : findJobByName s name = some job)
    (hen : job.enabled = true) (hdel : job.deleted = none)
    (hname : name ≠ "") (hjob : alookup s.jobs job.id = some j0) :
    ∃ r, handleJob false s locks al dynCtx name exec freshRunId
        freshLockValue now = .ok r ∧
      r.createdRunId =
        (if job.persist = some true then some freshRunId else none) ∧
      (((effectiveContext job dynCtx).distributed = some true ∧
          lockBlocked locks ("lock:" ++ name) now = true) →
        r.runUpdates = []) ∧
      (¬((effectiveContext job dynCtx).distributed = some true ∧
          lockBlocked locks ("lock:" ++ name) now = true) →
        r.runUpdates =
          (if job.persist = some true then [terminationUpdate exec now]
           else [])) := by
  unfold handleJob
  rw [if_neg (by decide : ¬((false : Bool) = true))]
  rw [if_neg hname]
  simp only [hfind]
  rw [if_neg (by simp [hen, hdel])]
  by_cases hp : job.persist = some true
  · rw [if_pos hp]
    rcases hcr : createJobRun s job.id now freshRunId now with e | p
    · exfalso
      simp [createJobRun, hjob] at hcr
    · obtain ⟨s1, run⟩ := p
      have hcr2 := hcr
      simp only [createJobRun, hjob, Option.isSome_some, Option.isNone_none,
        Bool.false_eq_true, if_neg, Except.ok.injEq, Prod.mk.injEq] at hcr2
      rw [if_neg (by simp)] at hcr2
      simp only [Except.ok.injEq, Prod.mk.injEq] at hcr2
      obtain ⟨hs1, hrun⟩ := hcr2
      subst hs1
      subst hrun
      simp only [hcr, Except.map, if_pos hp]
      by_cases hdist : (effectiveContext job dynCtx).distributed = some true
      · rw [if_pos hdist]
        unfold acquireLock
        by_cases hbl : lockBlocked locks ("lock:" ++ name) now
        · rw [if_pos hbl]
          exact ⟨_, rfl, rfl, fun _ => rfl, fun hc => absurd ⟨hdist, hbl⟩ hc⟩
        · rw [if_neg hbl]
          simp only [Bool.not_true]
          refine ⟨_, rfl, ?_, ?_, ?_⟩
          · exact (runExecutionPhase_some job _ _ _ _ exec freshRunId _
              name now j0 (by exact hjob) _ (alookup_aset_self _ _ _)).2
          · rintro ⟨_, hbl2⟩
            exact absurd hbl2 hbl
          · intro _
            exact (runExecutionPhase_some job _ _ _ _ exec freshRunId _
              name now j0 (by exact hjob) _ (alookup_aset_self _ _ _)).1
      · rw [if_neg hdist]
        refine ⟨_, rfl, ?_, ?_, ?_⟩
        · exact (runExecutionPhase_some job _ _ _ _ exec freshRunId _ name
            now j0 (by exact hjob) _ (alookup_aset_self _ _ _)).2
        · rintro ⟨hd2, _⟩
          exact absurd hd2 hdist
        · intro _
          exact (runExecutionPhase_some job _ _ _ _ exec freshRunId _ name
            now j0 (by exact hjob) _ (alookup_aset_self _ _ _)).1
  · rw [if_neg hp]
    simp only [if_neg hp]
    by_cases hdist : (effectiveContext job dynCtx).distributed = some true
    · rw [if_pos hdist]
      unfold acquireLock
      by_cases hbl : lockBlocked locks ("lock:" ++ name) now
      · rw [if_pos hbl]
        exact ⟨_, rfl, rfl, fun _ => rfl, fun hc => absurd ⟨hdist, hbl⟩ hc⟩
      · rw [if_neg hbl]
        simp only [Bool.not_true]
        refine ⟨_, rfl, ?_, ?_, ?_⟩
        · exact (runExecutionPhase_none job _ _ _ _ exec _ name now).2
        · rintro ⟨_, hbl2⟩
          exact absurd hbl2 hbl
        · intro _
          exact (runExecutionPhase_none job _ _ _ _ exec _ name now).1
    · rw [if_neg hdist]
      refine ⟨_, rfl, ?_, ?_, ?_⟩
      · exact (runExecutionPhase_none job _ _ _ _ exec _ name now).2
      · rintro ⟨hd2, _⟩
        exact absurd hd2 hdist
      · intro _
        exact (runExecutionPhase_none job _ _ _ _ exec _ name now).1

/-- C6 witness: the demo distributed persisted job with no lock
contention runs to completion — the run is created and receives exactly
its termination update. -/
theorem claim_C6_witness :
    ∃ r, handleJob false demoC6Storage [] [] none "j" (.ok .undef [])
        "run1" "lv" 100 = .ok r ∧
      r.createdRunId =
        (if demoDistJob.persist = some true then some "run1" else none) ∧
      (((effectiveContext demoDistJob none).distributed = some true ∧
          lockBlocked [] ("lock:" ++ "j") 100 = true) →
        r.runUpdates = []) ∧
      (¬((effectiveContext demoDistJob none).distributed = some true ∧
          lockBlocked [] ("lock:" ++ "j") 100 = true) →
        r.runUpdates =
          (if demoDistJob.persist = some true
           then [terminationUpdate (.ok .undef []) 100] else [])) :=
  claim_C6 demoC6Storage [] [] none "j" (.ok .undef []) "run1" "lv" 100
    demoDistJob demoDistJob (by decide) rfl rfl (by decide) (by decide)

/-- C6 counterexample to the claim as stated: with `persist = true`,
a distributed context and a foreign unexpired lock on `lock:j`, the
firing creates the JobRun and then returns without any further mutation:
the run stays `running` with no termination update — not "mutated
exactly twice". -/
theorem claim_C6_counterexample :
    (handleJob false demoC6Storage demoC6Locks [] none "j"
        (.ok .undef []) "run1" "lv" 100).toOption.map
      (fun r => (r.createdRunId, r.runUpdates,
        (alookup r.storage.jobRuns "run1").map
          (fun run => (run.completed, run.failed)))) =
      some (some "run1", [], some (none, none)) := by
  decide

theorem hexVal_hexDigit : ∀ n, n < 16 →
    hexValOfChar (hexDigitChar n) = n := by decide

theorem hexToBytes_bytesToHex (bs : List Nat) (h : ∀ b ∈ bs, b < 256) :
    hexToBytes (bytesToHex bs) = bs := by
  induction bs with
  | nil => rfl
  | cons b rest ih =>
      have hb : b < 256 := h b (by simp)
      show hexToBytes (hexDigitChar (b / 16) :: hexDigitChar (b % 16) ::
        bytesToHex rest) = b :: rest
      rw [hexToBytes]
      rw [hexVal_hexDigit _ (by omega), hexVal_hexDigit _ (by omega)]
      rw [ih (fun x hx => h x (by simp [hx]))]
      simp only [List.cons.injEq, and_true]
      omega

theorem b64Val_b64Char : ∀ n, n < 64 → b64Val (b64Char n) = n := by decide

theorem b64Char_ne_eqChar : ∀ n, n < 64 → b64Char n ≠ eqChar := by decide

theorem b64_roundtrip : ∀ (bs : List Nat), (∀ b ∈ bs, b < 256) →
    b64Decode (b64Encode bs) = bs
  | [], _ => rfl
  | [a], h => by
      have ha : a < 256 := h a (by simp)
      simp only [b64Encode, b64Decode]
      rw [if_pos trivial]
      rw [b64Val_b64Char _ (by omega), b64Val_b64Char _ (by omega)]
      simp only [List.cons.injEq, and_true]
      omega
  | [a, b], h => by
      have ha : a < 256 := h a (by simp)
      have hb : b < 256 := h b (by simp)
      simp only [b64Encode, b64Decode]
      rw [if_neg (b64Char_ne_eqChar _ (by omega))]
      rw [if_pos trivial]
      rw [b64Val_b64Char _ (by omega), b64Val_b64Char _ (by omega),
        b64Val_b64Char _ (by omega)]
      simp only [List.cons.injEq, and_true]
      exact ⟨by omega, by omega⟩
  | a :: b :: c :: rest, h => by
      have ha : a < 256 := h a (by simp)
      have hb : b < 256 := h b (by simp)
      have hc : c < 256 := h c (by simp)
      have ih := b64_roundtrip rest (fun x hx => h x (by simp [hx]))
      simp only [b64Encode, b64Decode]
      rw [if_neg (b64Char_ne_eqChar _ (by omega))]
      rw [if_neg (b64Char_ne_eqChar _ (by omega))]
      rw [b64Val_b64Char _ (by omega), b64Val_b64Char _ (by omega),
        b64Val_b64Char _ (by omega), b64Val_b64Char _ (by omega)]
      rw [ih]
      simp only [List.cons.injEq, and_true]
      exact ⟨by omega, by omega, by omega⟩

theorem ctrCrypt_ctrCrypt (ks : Nat → Nat) (l : List Nat) :
    ctrCrypt ks (ctrCrypt ks l) = l := by
  unfold ctrCrypt
  apply List.ext_getElem
  · simp
  · intro i h1 h2
    simp only [List.getElem_mapIdx]
    exact Nat.xor_cancel_right _ _

theorem ctrCrypt_mem_lt (ks : Nat → Nat) (l : List Nat)
    (hl : ∀ b ∈ l, b < 256) (hks : ∀ i, ks i < 256) :
    ∀ b ∈ ctrCrypt ks l, b < 256 := by
  intro b hb
  unfold ctrCrypt at hb
  rw [List.mem_mapIdx] at hb
  obtain ⟨i, hi, rfl⟩ := hb
  have h1 : l[i] < 2 ^ 8 := hl _ (List.getElem_mem _)
  have h2 : ks i < 2 ^ 8 := hks i
  have := Nat.xor_lt_two_pow h1 h2
  omega

/-- C2: for every secret passing the strength validation, every 16-byte
IV, 32-byte salt and plaintext, and every key-derivation function and
CTR keystream (in particular the real PBKDF2 / AES-256 pair),
`decryptQuery` inverts `encryptQuery`; and the envelope is base64 of
IV, then salt, then ciphertext, so any two encryptions of the same
plaintext under different (IV, salt) pairs produce different outputs. -/
theorem claim_C2 (kdf : List Char → List Nat → List Nat)
    (keystream : List Nat → List Nat → Nat → Nat) (secret : List Char)
    (iv1 salt1 iv2 salt2 text : List Nat)
    (hsec : validateQuerySecret secret = true)
    (hiv1 : iv1.length = 16) (hsalt1 : salt1.length = 32)
    (hiv2 : iv2.length = 16) (hsalt2 : salt2.length = 32)
    (hiv1b : ∀ b ∈ iv1, b < 256) (hsalt1b : ∀ b ∈ salt1, b < 256)
    (hiv2b : ∀ b ∈ iv2, b < 256) (hsalt2b : ∀ b ∈ salt2, b < 256)
    (htext : ∀ b ∈ text, b < 256)
    (hks : ∀ key iv i, keystream key iv i < 256) :
    decryptQuery kdf keystream secret
      (encryptQuery kdf keystream secret iv1 salt1 text) = text ∧
    ((iv1, salt1) ≠ (iv2, salt2) →
      encryptQuery kdf keystream secret iv1 salt1 text ≠
        encryptQuery kdf keystream secret iv2 salt2 text) := by
  have hct1 : hexToBytes (bytesToHex
      (ctrCrypt (keystream (kdf secret salt1) iv1) text)) =
      ctrCrypt (keystream (kdf secret salt1) iv1) text :=
    hexToBytes_bytesToHex _
      (ctrCrypt_mem_lt _ _ htext (fun i => hks _ _ i))
  have hct2 : hexToBytes (bytesToHex
      (ctrCrypt (keystream (kdf secret salt2) iv2) text)) =
      ctrCrypt (keystream (kdf secret salt2) iv2) text :=
    hexToBytes_bytesToHex _
      (ctrCrypt_mem_lt _ _ htext (fun i => hks _ _ i))
  have hc1b : ∀ b ∈ iv1 ++ (salt1 ++
      ctrCrypt (keystream (kdf secret salt1) iv1) text), b < 256 := by
    intro b hb
    rcases List.mem_append.mp hb with h | h
    · exact hiv1b b h
    · rcases List.mem_append.mp h with h | h
      · exact hsalt1b b h
      · exact ctrCrypt_mem_lt _ _ htext (fun i => hks _ _ i) b h
  have hc2b : ∀ b ∈ iv2 ++ (salt2 ++
      ctrCrypt (keystream (kdf secret salt2) iv2) text), b < 256 := by
    intro b hb
    rcases List.mem_append.mp hb with h | h
    · exact hiv2b b h
    · rcases List.mem_append.mp h with h | h
      · exact hsalt2b b h
      · exact ctrCrypt_mem_lt _ _ htext (fun i => hks _ _ i) b h
  constructor
  · unfold decryptQuery encryptQuery
    dsimp only
    rw [hct1]
    rw [List.append_assoc iv1 salt1
      (ctrCrypt (keystream (kdf secret salt1) iv1) text)]
    rw [b64_roundtrip _ hc1b]
    rw [List.take_left' hiv1]
    rw [List.drop_left' hiv1]
    rw [List.take_left' hsalt1]
    have h48 : (iv1 ++ salt1).length = 48 := by simp [hiv1, hsalt1]
    rw [show iv1 ++ (salt1 ++
        ctrCrypt (keystream (kdf secret salt1) iv1) text) =
        (iv1 ++ salt1) ++ ctrCrypt (keystream (kdf secret salt1) iv1) text
      from (List.append_assoc _ _ _).symm]
    rw [List.drop_left' h48]
    exact ctrCrypt_ctrCrypt _ _
  · intro hne heq
    unfold encryptQuery at heq
    dsimp only at heq
    rw [hct1, hct2] at heq
    rw [List.append_assoc iv1 salt1
      (ctrCrypt (keystream (kdf secret salt1) iv1) text)] at heq
    rw [List.append_assoc iv2 salt2
      (ctrCrypt (keystream (kdf secret salt2) iv2) text)] at heq
    have hcomb : iv1 ++ (salt1 ++
        ctrCrypt (keystream (kdf secret salt1) iv1) text) =
        iv2 ++ (salt2 ++
        ctrCrypt (keystream (kdf secret salt2) iv2) text) := by
      rw [← b64_roundtrip _ hc1b, ← b64_roundtrip _ hc2b, heq]
    have hiv : iv1 = iv2 := by
      have h := congrArg (List.take 16) hcomb
      rwa [List.take_left' hiv1, List.take_left' hiv2] at h
    have hsalt : salt1 = salt2 := by
      have h := congrArg (fun l => (List.drop 16 l).take 32) hcomb
      simp only at h
      rwa [List.drop_left' hiv1, List.drop_left' hiv2,
        List.take_left' hsalt1, List.take_left' hsalt2] at h
    exact hne (by rw [hiv, hsalt])

/-- C2 witness: the strong secret of scenario S4, the plaintext
"SELECT 1", concrete IVs/salt and a constant key-derivation/keystream
pair. -/
theorem claim_C2_witness :
    decryptQuery wkdf wks wsecret
      (encryptQuery wkdf wks wsecret wiv1 wsalt wtext) = wtext ∧
    ((wiv1, wsalt) ≠ (wiv2, wsalt) →
      encryptQuery wkdf wks wsecret wiv1 wsalt wtext ≠
        encryptQuery wkdf wks wsecret wiv2 wsalt wtext) :=
  claim_C2 wkdf wks wsecret wiv1 wsalt wiv2 wsalt wtext
    (by decide) (by decide) (by decide) (by decide) (by decide)
    (by decide) (by decide) (by decide) (by decide) (by decide)
    (by intro k i j; simp only [wks]; omega)

end Ludari
